import Mathlib

/-!
# vtkEllipsoidalGaussianKernel

A shallow embedding of `Filters/Points/vtkEllipsoidalGaussianKernel.cxx`.

* `double` values are elements of a field `R`; the functions `exp` and `sqrt`
  of the C library are parameters, instantiated with `Real.exp` and
  `Real.sqrt` in the theorems (exact real arithmetic).  A division by a zero
  denominator, where IEEE doubles give NaN or an infinity, is the field's
  `a / 0 = 0`.
* Pointers that may be `NULL` are `Option`s; dereferencing `NULL` makes the
  embedded function return `none`.
* Objects that are reference counted carry the address that identifies them,
  and the reference counts live in a map beside the kernel.
* Locals that the C++ code declares without initialising them are parameters
  of the embedded function (`n0` for `double n[3]`).
* Where a property depends on the rounding of `double`s, `ComputeWeights` is
  embedded a second time with the rounding of every result as a parameter
  (`ComputeWeightsFl`), instantiated with the underflow to `0.0` (`flush`).
-/

namespace VTK

/-- A `double[3]`. -/
abbrev Vec3 (R : Type) := Fin 3 → R

/-- Modelled from the spec: `vtkMath::Dot` (vtkMath.h is not among the
sources), the dot product `a·b` of two 3-vectors. -/
def Dot {R : Type} [Field R] (a b : Vec3 R) : R :=
  a 0 * b 0 + a 1 * b 1 + a 2 * b 2

/-- A `vtkDataArray`: `GetComponent id j` is component `j` of tuple `id`. -/
structure vtkDataArray (R : Type) where
  Address : Nat
  NumberOfComponents : Nat
  GetComponent : Int → Nat → R

/-- Modelled from the spec: `vtkDataArray::GetTuple(id, tuple)` (array
"supports `componentCount()`, `tuple(id) -> float[]`"): copies the
`NumberOfComponents` components of tuple `id` into the caller's buffer and
leaves the rest of the buffer as it was.  The buffer here is a `double[3]`;
components past the third would be written outside it and are dropped. -/
def vtkDataArray.GetTuple {R : Type} (a : vtkDataArray R) (id : Int) (buf : Vec3 R) :
    Vec3 R :=
  fun j => if j.val < a.NumberOfComponents then a.GetComponent id j.val else buf j

/-- A `vtkDataSet`, as far as the kernel uses it: `GetPoint(id, y)`. -/
structure vtkDataSet (R : Type) where
  Address : Nat
  GetPoint : Int → Vec3 R

/-- A `vtkPointData`, as far as the kernel uses it: `GetArray(name)`, which
is `NULL` when there is no array of that name. -/
structure vtkPointData (R : Type) where
  Address : Nat
  GetArray : String → Option (vtkDataArray R)

/-- A `vtkAbstractPointLocator`, as far as the kernel uses it. -/
structure vtkAbstractPointLocator (R : Type) where
  Address : Nat
  FindPointsWithinRadius : R → Vec3 R → List Int

/-- The data members of a `vtkEllipsoidalGaussianKernel`; the first three
are inherited from `vtkInterpolationKernel`. -/
structure vtkEllipsoidalGaussianKernel (R : Type) where
  Locator : Option (vtkAbstractPointLocator R)
  DataSet : Option (vtkDataSet R)
  PointData : Option (vtkPointData R)
  UseNormals : Bool
  UseScalars : Bool
  NormalsArrayName : String
  ScalarsArrayName : String
  ScaleFactor : R
  Radius : R
  Sharpness : R
  Eccentricity : R
  F2 : R
  E2 : R
  NormalsArray : Option (vtkDataArray R)
  ScalarsArray : Option (vtkDataArray R)

/-- The kernel together with the reference count of the object at each
address. -/
structure State (R : Type) where
  kernel : vtkEllipsoidalGaussianKernel R
  ReferenceCount : Nat → Int

/-- Modelled from the spec: `vtkObjectBase::Register` ("kernel takes a
shared, reference-counted hold"): one more reference to the object at
`addr`. -/
def Register (rc : Nat → Int) (addr : Nat) : Nat → Int :=
  fun a => if a = addr then rc a + 1 else rc a

/-- Modelled from the spec: `vtkObjectBase::Delete` ("releases held
attribute-array references"): one reference less to the object at `addr`. -/
def Delete (rc : Nat → Int) (addr : Nat) : Nat → Int :=
  fun a => if a = addr then rc a - 1 else rc a

/-- The constructor `vtkEllipsoidalGaussianKernel()`; the base class
constructor leaves `Locator`, `DataSet` and `PointData` `NULL`. -/
def vtkEllipsoidalGaussianKernel.new (R : Type) [Field R] : vtkEllipsoidalGaussianKernel R :=
  let Radius : R := 1
  let Sharpness : R := 2
  let Eccentricity : R := 2
  { Locator := none
    DataSet := none
    PointData := none
    UseNormals := true
    UseScalars := false
    NormalsArrayName := "Normals"
    ScalarsArrayName := "Scalars"
    ScaleFactor := 1
    Radius := Radius
    Sharpness := Sharpness
    Eccentricity := Eccentricity
    F2 := Sharpness / Radius
    E2 := Eccentricity * Eccentricity
    NormalsArray := none
    ScalarsArray := none }

/-- Modelled from the spec: `vtkInterpolationKernel::FreeStructures` (the
base class is not among the sources; "releases held ... references and clears
bindings"): releases the locator, the data set and the point data. -/
def Superclass_FreeStructures {R : Type} (S : State R) : State R :=
  let S1 : State R :=
    match S.kernel.Locator with
    | some loc =>
      { kernel := { S.kernel with Locator := none }
        ReferenceCount := Delete S.ReferenceCount loc.Address }
    | none => S
  let S2 : State R :=
    match S1.kernel.DataSet with
    | some ds =>
      { kernel := { S1.kernel with DataSet := none }
        ReferenceCount := Delete S1.ReferenceCount ds.Address }
    | none => S1
  match S2.kernel.PointData with
  | some pd =>
    { kernel := { S2.kernel with PointData := none }
      ReferenceCount := Delete S2.ReferenceCount pd.Address }
  | none => S2

/-- `vtkEllipsoidalGaussianKernel::FreeStructures`. -/
def FreeStructures {R : Type} (S : State R) : State R :=
  let S0 := Superclass_FreeStructures S
  let S1 : State R :=
    match S0.kernel.NormalsArray with
    | some na =>
      { kernel := { S0.kernel with NormalsArray := none }
        ReferenceCount := Delete S0.ReferenceCount na.Address }
    | none => S0
  match S1.kernel.ScalarsArray with
  | some sa =>
    { kernel := { S1.kernel with ScalarsArray := none }
      ReferenceCount := Delete S1.ReferenceCount sa.Address }
  | none => S1

/-- Modelled from the spec: `vtkInterpolationKernel::Initialize` (the base
class is not among the sources; "Binds the Neighbor Finder to `locator` and
`pointSet`", "calling again with fresh inputs releases prior bindings and
rebinds"): releases what the kernel holds through the virtual
`FreeStructures`, then holds the locator, the data set and the point data. -/
def Superclass_Initialize {R : Type} (S : State R)
    (loc : Option (vtkAbstractPointLocator R)) (ds : Option (vtkDataSet R))
    (pd : vtkPointData R) : State R :=
  let S0 := FreeStructures S
  let rc1 : Nat → Int :=
    match loc with
    | some l => Register S0.ReferenceCount l.Address
    | none => S0.ReferenceCount
  let rc2 : Nat → Int :=
    match ds with
    | some d => Register rc1 d.Address
    | none => rc1
  { kernel := { S0.kernel with Locator := loc, DataSet := ds, PointData := some pd }
    ReferenceCount := Register rc2 pd.Address }

/-- `vtkEllipsoidalGaussianKernel::Initialize(loc, ds, pd)`.  `pd` is
dereferenced unconditionally, so it is an object; `loc` and `ds` may be
`NULL`. -/
def Initialize {R : Type} [Field R] (S : State R)
    (loc : Option (vtkAbstractPointLocator R)) (ds : Option (vtkDataSet R))
    (pd : vtkPointData R) : State R :=
  let S0 := Superclass_Initialize S loc ds pd
  -- this->ScalarsArray = pd->GetArray(this->ScalarsArrayName);
  let S1 : State R :=
    match pd.GetArray S0.kernel.ScalarsArrayName with
    | some sa =>
      if S0.kernel.UseScalars = true ∧ sa.NumberOfComponents = 1 then
        { kernel := { S0.kernel with ScalarsArray := some sa }
          ReferenceCount := Register S0.ReferenceCount sa.Address }
      else
        { S0 with kernel := { S0.kernel with ScalarsArray := none } }
    | none => { S0 with kernel := { S0.kernel with ScalarsArray := none } }
  -- this->NormalsArray = pd->GetArray(this->NormalsArrayName);
  let S2 : State R :=
    match pd.GetArray S1.kernel.NormalsArrayName with
    | some na =>
      if S1.kernel.UseNormals = true then
        { kernel := { S1.kernel with NormalsArray := some na }
          ReferenceCount := Register S1.ReferenceCount na.Address }
      else
        { S1 with kernel := { S1.kernel with NormalsArray := none } }
    | none => { S1 with kernel := { S1.kernel with NormalsArray := none } }
  let F2 : R := S2.kernel.Sharpness / S2.kernel.Radius
  let F2 : R := F2 * F2
  { S2 with kernel := { S2.kernel with F2 := F2,
                                       E2 := S2.kernel.Eccentricity * S2.kernel.Eccentricity } }

/-- `vtkEllipsoidalGaussianKernel::ComputeBasis(x, pIds)`: the ids the
locator finds within `Radius` of `x`; `none` when the locator is `NULL`. -/
def ComputeBasis {R : Type} (K : vtkEllipsoidalGaussianKernel R) (x : Vec3 R) :
    Option (List Int) :=
  match K.Locator with
  | some loc => some (loc.FindPointsWithinRadius K.Radius x)
  | none => none

/-! ### ComputeWeights -/

/-- `v[j] = x[j] - y[j]`. -/
def offset {R : Type} [Field R] (x y : Vec3 R) : Vec3 R :=
  fun j => x j - y j

/-- "Normal affect", the buffer: `n` after
`if (this->NormalsArray) this->NormalsArray->GetTuple(id,n);`. -/
def normalBuffer {R : Type} (K : vtkEllipsoidalGaussianKernel R) (id : Int) (n : Vec3 R) :
    Vec3 R :=
  match K.NormalsArray with
  | some na => na.GetTuple id n
  | none => n

/-- "Normal affect", the magnitude: `mag` after the `if`, for the buffer `n`
the `if` has left: `Dot(n,n)`, then `mag == 0.0 ? 1.0 : sqrt(mag)` with a
normals array, `1.0` without one. -/
def magnitude {R : Type} [Field R] [DecidableEq R] (sqrt : R → R)
    (K : vtkEllipsoidalGaussianKernel R) (n : Vec3 R) : R :=
  match K.NormalsArray with
  | some _ => if Dot n n = 0 then 1 else sqrt (Dot n n)
  | none => 1

/-- "Scalar scaling": `s` after the `if`.  `ScalarsArray` is only ever set by
`Initialize`, to an array with one component, so `GetTuple(id,&s)` stores
component 0 of tuple `id` in `s`. -/
def scalar {R : Type} [Field R] (K : vtkEllipsoidalGaussianKernel R) (id : Int) : R :=
  match K.ScalarsArray with
  | some sa => sa.GetComponent id 0
  | none => 1

/-- `z2 = vtkMath::Dot(v,n) / mag; z2 = z2*z2;`. -/
def z2 {R : Type} [Field R] (v n : Vec3 R) (mag : R) : R :=
  let z := Dot v n / mag
  z * z

/-- `rxy2 = r2 - z2;`. -/
def rxy2 {R : Type} [Field R] (v n : Vec3 R) (mag : R) : R :=
  Dot v v - z2 v n mag

/-- `s * exp(-f2 * (rxy2/e2 + z2))`. -/
def falloff {R : Type} [Field R] (exp : R → R) (f2 e2 s : R) (v n : Vec3 R) (mag : R) : R :=
  s * exp (-f2 * (rxy2 v n mag / e2 + z2 v n mag))

/-- How the first loop of `ComputeWeights` ends: with the `return 1` of an
exact hit on point `id`, or after the last id, with `w[0..numPts-1]`, `sum`
and the buffer `n`. -/
inductive LoopExit (R : Type) where
  | hit (id : Int)
  | done (w : List R) (sum : R) (n : Vec3 R)

/-- The first loop of `ComputeWeights`, over the ids still to visit; `w` holds
the entries `w[0..i-1]` written so far, `sum` and `n` are the locals.
`none`: `this->DataSet` is `NULL` when the body dereferences it. -/
def weightLoop {R : Type} [Field R] [DecidableEq R] (exp sqrt : R → R)
    (K : vtkEllipsoidalGaussianKernel R) (x : Vec3 R) :
    List Int → List R → R → Vec3 R → Option (LoopExit R)
  | [], w, sum, n => some (LoopExit.done w sum n)
  | id :: rest, w, sum, n =>
    match K.DataSet with
    | none => none
    | some ds =>
      let y := ds.GetPoint id
      let v := offset x y
      let r2 := Dot v v
      if r2 = 0 then
        some (LoopExit.hit id)
      else
        let n1 := normalBuffer K id n
        let mag := magnitude sqrt K n1
        let s := scalar K id
        let wi := falloff exp K.F2 K.E2 s v n1 mag
        weightLoop exp sqrt K x rest (w ++ [wi]) (sum + wi) n1

/-- What a call of `ComputeWeights` leaves: the value it returns, the id list
and the weights array. -/
structure WeightsResult (R : Type) where
  numPts : Int
  pIds : List Int
  weights : List R

/-- `vtkEllipsoidalGaussianKernel::ComputeWeights(x, pIds, weights)`.  `n0`
is what the uninitialised local `double n[3]` holds on entry.  Every entry of
`weights` that is kept is written before it is read, so the array's old
contents are no argument. -/
def ComputeWeights {R : Type} [Field R] [DecidableEq R] (exp sqrt : R → R)
    (K : vtkEllipsoidalGaussianKernel R) (x : Vec3 R) (pIds : List Int) (n0 : Vec3 R) :
    Option (WeightsResult R) :=
  match weightLoop exp sqrt K x pIds [] 0 n0 with
  | none => none
  | some (LoopExit.hit id) =>
    some { numPts := 1, pIds := [id], weights := [1] }
  | some (LoopExit.done w sum _) =>
    some { numPts := pIds.length, pIds := pIds, weights := w.map (fun wi => wi / sum) }

/-- The unnormalized weight the loop body computes for point `id` when the
buffer `n` holds `n0` before the body runs. -/
def unnormalizedWeight {R : Type} [Field R] [DecidableEq R] (exp sqrt : R → R)
    (K : vtkEllipsoidalGaussianKernel R) (ds : vtkDataSet R) (x n0 : Vec3 R) (id : Int) : R :=
  let v := offset x (ds.GetPoint id)
  let n1 := normalBuffer K id n0
  falloff exp K.F2 K.E2 (scalar K id) v n1 (magnitude sqrt K n1)

/-- The `z2` the loop body computes for point `id` when the buffer `n` holds
`n0` before the body runs. -/
def z2At {R : Type} [Field R] [DecidableEq R] (sqrt : R → R)
    (K : vtkEllipsoidalGaussianKernel R) (ds : vtkDataSet R) (x n0 : Vec3 R) (id : Int) : R :=
  let n1 := normalBuffer K id n0
  z2 (offset x (ds.GetPoint id)) n1 (magnitude sqrt K n1)

/-- The `rxy2` the loop body computes for point `id` when the buffer `n` holds
`n0` before the body runs. -/
def rxy2At {R : Type} [Field R] [DecidableEq R] (sqrt : R → R)
    (K : vtkEllipsoidalGaussianKernel R) (ds : vtkDataSet R) (x n0 : Vec3 R) (id : Int) : R :=
  let n1 := normalBuffer K id n0
  rxy2 (offset x (ds.GetPoint id)) n1 (magnitude sqrt K n1)

/-- The direct isotropic computation: the Gaussian `exp(-F2 * r2_i)` of the
squared distance `r2_i` of each point from `x`, divided by the sum of these
over the list. -/
def isotropicWeights {R : Type} [Field R] (exp : R → R) (F2 : R) (ds : vtkDataSet R)
    (x : Vec3 R) (pIds : List Int) : List R :=
  let r2 : Int → R := fun i =>
    (x 0 - ds.GetPoint i 0) ^ 2 + (x 1 - ds.GetPoint i 1) ^ 2 + (x 2 - ds.GetPoint i 2) ^ 2
  pIds.map (fun i => exp (-F2 * r2 i) / (pIds.map (fun j => exp (-F2 * r2 j))).sum)

/-- The unnormalized weight as the specification writes it, for an offset
`v = x - y`, a normal `n` and a scalar `s`: `r2 = v·v`, `mag = sqrt(n·n)`
replaced by 1 when `n·n = 0`, `z2 = ((v·n)/mag)^2`, `rxy2 = r2 - z2` and
`w = s * exp(-F2 * (rxy2 / E2 + z2))`. -/
def specWeight {R : Type} [Field R] [DecidableEq R] (exp sqrt : R → R)
    (F2 E2 s : R) (x y n : Vec3 R) : R :=
  let v : Vec3 R := fun j => x j - y j
  let r2 := Dot v v
  let mag := if Dot n n = 0 then 1 else sqrt (Dot n n)
  let z2 := (Dot v n / mag) ^ 2
  let rxy2 := r2 - z2
  s * exp (-F2 * (rxy2 / E2 + z2))

/-! ### ComputeWeights on the memory it can reach -/

/-- What a call of `ComputeWeights` can reach: the kernel with the objects it
points to and the reference counts (`state`), and the `vtkIdList` and the
`vtkDoubleArray` passed in. -/
structure Memory (R : Type) where
  state : State R
  pIds : List Int
  weights : List R

/-- Modelled from the spec: `vtkDoubleArray::SetNumberOfTuples(k)` on an array
of one component ("one weight per neighbor"): `k` entries afterwards, the old
ones as far as they reach, then whatever the allocation holds (`junk`). -/
def SetNumberOfTuples {R : Type} (a : List R) (k : Nat) (junk : R) : List R :=
  a.take k ++ List.replicate (k - a.length) junk

/-- How the first loop ends, with the memory it leaves: the `return 1` of an
exact hit, or the end of the id list with `sum` and the buffer `n`. -/
inductive LoopExitIn (R : Type) where
  | hit (M : Memory R)
  | done (M : Memory R) (sum : R) (n : Vec3 R)

/-- The first loop of `ComputeWeights` with its writes to memory, from
iteration `i` on; the list is the ids `pIds->GetId(i)`, `pIds->GetId(i+1)`,
... still to visit.  The body reads `this` and the objects it points to and
writes `w[i]`; the exact hit writes the id list and the weights array. -/
def weightLoopIn {R : Type} [Field R] [DecidableEq R] (exp sqrt : R → R) (x : Vec3 R) :
    List Int → Nat → Memory R → R → Vec3 R → Option (LoopExitIn R)
  | [], _, M, sum, n => some (LoopExitIn.done M sum n)
  | id :: rest, i, M, sum, n =>
    match M.state.kernel.DataSet with
    | none => none
    | some ds =>
      let y := ds.GetPoint id
      let v := offset x y
      let r2 := Dot v v
      if r2 = 0 then
        some (LoopExitIn.hit { M with pIds := [id], weights := [1] })
      else
        let n1 := normalBuffer M.state.kernel id n
        let mag := magnitude sqrt M.state.kernel n1
        let s := scalar M.state.kernel id
        let wi := falloff exp M.state.kernel.F2 M.state.kernel.E2 s v n1 mag
        weightLoopIn exp sqrt x rest (i + 1) { M with weights := M.weights.set i wi }
          (sum + wi) n1

/-- `ComputeWeights` as a function of the memory it can reach: the memory it
leaves and the value it returns.  `junk` is what the entries hold that
`SetNumberOfTuples` adds. -/
def ComputeWeightsIn {R : Type} [Field R] [DecidableEq R] (exp sqrt : R → R)
    (M : Memory R) (x n0 : Vec3 R) (junk : R) : Option (Memory R × Int) :=
  let numPts := M.pIds.length
  let M1 : Memory R := { M with weights := SetNumberOfTuples M.weights numPts junk }
  match weightLoopIn exp sqrt x M1.pIds 0 M1 0 n0 with
  | none => none
  | some (LoopExitIn.hit M2) => some (M2, 1)
  | some (LoopExitIn.done M2 sum _) =>
    some ({ M2 with weights := M2.weights.map (fun wi => wi / sum) }, numPts)

/-- The memory a loop exit of `weightLoop` stands for, when the loop started
from the memory `M`. -/
def LoopExit.toMemory {R : Type} [Field R] (M : Memory R) : LoopExit R → LoopExitIn R
  | LoopExit.hit id => LoopExitIn.hit { M with pIds := [id], weights := [1] }
  | LoopExit.done w sum n => LoopExitIn.done { M with weights := w } sum n

/-! ### ComputeWeights with rounded arithmetic

The definitions above compute in a field.  An operation on `double`s returns
the exact result rounded to a `double`; in the definitions below that
rounding is a parameter `fl`, applied to the result of every operation in the
order in which the C++ expressions are evaluated.  With `fl` the identity
they are the definitions above. -/

/-- The part of IEEE rounding to nearest that the properties below depend on,
underflow: a result of magnitude below `2^-1075`, half the least positive
`double`, is `0.0`.  Every other result is left as it is, so `flush` rounds
as the `double`s do wherever the other results are `double`s themselves. -/
def flush {R : Type} [LinearOrderedField R] (a : R) : R :=
  if |a| < ((2 : R) ^ 1075)⁻¹ then 0 else a

/-- The value of a division of `double`s: a number, an infinity or NaN. -/
inductive DoubleQuotient (R : Type) where
  | num (r : R)
  | inf (negative : Bool)
  | nan

/-- The division `a / b` of `double`s: NaN for `0.0 / 0.0`, an infinity with
the sign of `a` for another quotient by `0.0` (the sign of the zero is left
out), the rounded quotient otherwise. -/
def divFl {R : Type} [LinearOrderedField R] (fl : R → R) (a b : R) : DoubleQuotient R :=
  if b = 0 then
    if a = 0 then DoubleQuotient.nan else DoubleQuotient.inf (decide (a < 0))
  else DoubleQuotient.num (fl (a / b))

/-- The comparison `a >= b` of `double`s: false when either is NaN. -/
def DoubleQuotient.ge {R : Type} [LinearOrderedField R] :
    DoubleQuotient R → DoubleQuotient R → Prop
  | DoubleQuotient.num a, DoubleQuotient.num b => b ≤ a
  | DoubleQuotient.inf false, DoubleQuotient.num _ => True
  | DoubleQuotient.inf false, DoubleQuotient.inf _ => True
  | DoubleQuotient.num _, DoubleQuotient.inf true => True
  | DoubleQuotient.inf true, DoubleQuotient.inf true => True
  | _, _ => False

/-- Modelled from the spec: `vtkMath::Dot` on `double`s,
`a[0]*b[0] + a[1]*b[1] + a[2]*b[2]` with every product and sum rounded. -/
def DotFl {R : Type} [Field R] (fl : R → R) (a b : Vec3 R) : R :=
  fl (fl (fl (a 0 * b 0) + fl (a 1 * b 1)) + fl (a 2 * b 2))

/-- `v[j] = x[j] - y[j]` on `double`s. -/
def offsetFl {R : Type} [Field R] (fl : R → R) (x y : Vec3 R) : Vec3 R :=
  fun j => fl (x j - y j)

/-- `mag` on `double`s: `Dot(n,n)`, then `mag == 0.0 ? 1.0 : sqrt(mag)` with a
normals array, `1.0` without one. -/
def magnitudeFl {R : Type} [Field R] [DecidableEq R] (fl sqrt : R → R)
    (K : vtkEllipsoidalGaussianKernel R) (n : Vec3 R) : R :=
  match K.NormalsArray with
  | some _ => if DotFl fl n n = 0 then 1 else fl (sqrt (DotFl fl n n))
  | none => 1

/-- `z2 = vtkMath::Dot(v,n) / mag; z2 = z2*z2;` on `double`s. -/
def z2Fl {R : Type} [Field R] (fl : R → R) (v n : Vec3 R) (mag : R) : R :=
  let z := fl (DotFl fl v n / mag)
  fl (z * z)

/-- `rxy2 = r2 - z2;` on `double`s. -/
def rxy2Fl {R : Type} [Field R] (fl : R → R) (r2 z2 : R) : R :=
  fl (r2 - z2)

/-- `s * exp(-f2 * (rxy2/e2 + z2))` on `double`s. -/
def falloffFl {R : Type} [Field R] (fl exp : R → R) (f2 e2 s rxy2 z2 : R) : R :=
  fl (s * fl (exp (fl (-f2 * fl (fl (rxy2 / e2) + z2)))))

/-- The first loop of `ComputeWeights` on `double`s; as `weightLoop`, with
every result rounded. -/
def weightLoopFl {R : Type} [Field R] [DecidableEq R] (fl exp sqrt : R → R)
    (K : vtkEllipsoidalGaussianKernel R) (x : Vec3 R) :
    List Int → List R → R → Vec3 R → Option (LoopExit R)
  | [], w, sum, n => some (LoopExit.done w sum n)
  | id :: rest, w, sum, n =>
    match K.DataSet with
    | none => none
    | some ds =>
      let y := ds.GetPoint id
      let v := offsetFl fl x y
      let r2 := DotFl fl v v
      if r2 = 0 then
        some (LoopExit.hit id)
      else
        let n1 := normalBuffer K id n
        let mag := magnitudeFl fl sqrt K n1
        let s := scalar K id
        let z2 := z2Fl fl v n1 mag
        let rxy2 := rxy2Fl fl r2 z2
        let wi := falloffFl fl exp K.F2 K.E2 s rxy2 z2
        weightLoopFl fl exp sqrt K x rest (w ++ [wi]) (fl (sum + wi)) n1

/-- The `z2` the loop body computes on `double`s for point `id` when the
buffer `n` holds `n0` before the body runs. -/
def z2AtFl {R : Type} [Field R] [DecidableEq R] (fl sqrt : R → R)
    (K : vtkEllipsoidalGaussianKernel R) (ds : vtkDataSet R) (x n0 : Vec3 R) (id : Int) : R :=
  let v := offsetFl fl x (ds.GetPoint id)
  let n1 := normalBuffer K id n0
  z2Fl fl v n1 (magnitudeFl fl sqrt K n1)

/-- The `rxy2` the loop body computes on `double`s for point `id` when the
buffer `n` holds `n0` before the body runs. -/
def rxy2AtFl {R : Type} [Field R] [DecidableEq R] (fl sqrt : R → R)
    (K : vtkEllipsoidalGaussianKernel R) (ds : vtkDataSet R) (x n0 : Vec3 R) (id : Int) : R :=
  let v := offsetFl fl x (ds.GetPoint id)
  let n1 := normalBuffer K id n0
  rxy2Fl fl (DotFl fl v v) (z2Fl fl v n1 (magnitudeFl fl sqrt K n1))

/-- What a call of `ComputeWeights` on `double`s leaves: the value it returns,
the id list and the weights array, whose entries after the normalization are
values of a division. -/
structure WeightsResultFl (R : Type) where
  numPts : Int
  pIds : List Int
  weights : List (DoubleQuotient R)

/-- `vtkEllipsoidalGaussianKernel::ComputeWeights(x, pIds, weights)` on
`double`s; as `ComputeWeights`, with every result rounded and the division
`w[i] /= sum` that of the `double`s. -/
def ComputeWeightsFl {R : Type} [LinearOrderedField R] (fl exp sqrt : R → R)
    (K : vtkEllipsoidalGaussianKernel R) (x : Vec3 R) (pIds : List Int) (n0 : Vec3 R) :
    Option (WeightsResultFl R) :=
  match weightLoopFl fl exp sqrt K x pIds [] 0 n0 with
  | none => none
  | some (LoopExit.hit id) =>
    some { numPts := 1, pIds := [id], weights := [DoubleQuotient.num 1] }
  | some (LoopExit.done w sum _) =>
    some { numPts := pIds.length, pIds := pIds, weights := w.map (fun wi => divFl fl wi sum) }

/-! ### Example data -/

/-- A data set whose point `id` lies on the first axis at `(id, 0, 0)`. -/
def exampleDataSet (R : Type) [Field R] : vtkDataSet R :=
  { Address := 1, GetPoint := fun id => ![(id : R), 0, 0] }

/-- A normals array with three components: the normal `(0, 0, 1)` at every
point. -/
def exampleNormals (R : Type) [Field R] : vtkDataArray R :=
  { Address := 2, NumberOfComponents := 3, GetComponent := fun _ j => if j = 2 then 1 else 0 }

/-- A scalars array with one component: the scalar `3` at every point. -/
def exampleScalars (R : Type) [Field R] : vtkDataArray R :=
  { Address := 3, NumberOfComponents := 1, GetComponent := fun _ _ => 3 }

/-- Point data holding `exampleNormals` as "Normals" and `exampleScalars` as
"Scalars". -/
def examplePointData (R : Type) [Field R] : vtkPointData R :=
  { Address := 4
    GetArray := fun name =>
      if name = "Normals" then some (exampleNormals R)
      else if name = "Scalars" then some (exampleScalars R)
      else none }

/-- Point data without any array. -/
def emptyPointData (R : Type) : vtkPointData R :=
  { Address := 5, GetArray := fun _ => none }

/-- A state in which nothing is referenced, around a fresh kernel. -/
def freshState (R : Type) [Field R] : State R :=
  { kernel := vtkEllipsoidalGaussianKernel.new R, ReferenceCount := fun _ => 0 }

/-- A fresh kernel after `Initialize` on the example data: normals bound, no
scalars (`UseScalars` is off). -/
def exampleKernel (R : Type) [Field R] : vtkEllipsoidalGaussianKernel R :=
  (Initialize (freshState R) none (some (exampleDataSet R)) (examplePointData R)).kernel

/-- A fresh kernel with `UseScalars` switched on, after `Initialize` on the
example data: normals and scalars bound. -/
def exampleKernelScalars (R : Type) [Field R] : vtkEllipsoidalGaussianKernel R :=
  (Initialize { freshState R with kernel := { (freshState R).kernel with UseScalars := true } }
    none (some (exampleDataSet R)) (examplePointData R)).kernel

/-- A fresh kernel after `Initialize` on point data without arrays: neither
normals nor scalars bound. -/
def exampleKernelBare (R : Type) [Field R] : vtkEllipsoidalGaussianKernel R :=
  (Initialize (freshState R) none (some (exampleDataSet R)) (emptyPointData R)).kernel

/-- A fresh kernel with `Eccentricity` set to 1, after `Initialize` on point
data without arrays. -/
def exampleKernelIsotropic (R : Type) [Field R] : vtkEllipsoidalGaussianKernel R :=
  (Initialize { freshState R with kernel := { (freshState R).kernel with Eccentricity := 1 } }
    none (some (exampleDataSet R)) (emptyPointData R)).kernel

/-- A normals array with three components holding the normal `(0, 0, 0)` at
every point. -/
def exampleNormalsZero (R : Type) [Field R] : vtkDataArray R :=
  { Address := 7, NumberOfComponents := 3, GetComponent := fun _ _ => 0 }

/-- The example kernel with `exampleNormalsZero` bound as its normals. -/
def exampleKernelZeroNormals (R : Type) [Field R] : vtkEllipsoidalGaussianKernel R :=
  { exampleKernel R with NormalsArray := some (exampleNormalsZero R) }

/-- A scalars array with one component: the scalar 2 at point 0 and the
scalar -1 at every other point. -/
def exampleScalarsMixed (R : Type) [Field R] : vtkDataArray R :=
  { Address := 8, NumberOfComponents := 1, GetComponent := fun id _ => if id = 0 then 2 else -1 }

/-- The example kernel with `exampleScalarsMixed` bound as its scalars. -/
def exampleKernelMixed (R : Type) [Field R] : vtkEllipsoidalGaussianKernel R :=
  { exampleKernelScalars R with ScalarsArray := some (exampleScalarsMixed R) }

/-- A scalars array with one component: the scalar 0 at every point. -/
def exampleScalarsZero (R : Type) [Field R] : vtkDataArray R :=
  { Address := 9, NumberOfComponents := 1, GetComponent := fun _ _ => 0 }

/-- The example kernel with `exampleScalarsZero` bound as its scalars. -/
def exampleKernelZeroScalars (R : Type) [Field R] : vtkEllipsoidalGaussianKernel R :=
  { exampleKernelScalars R with ScalarsArray := some (exampleScalarsZero R) }

/-- A fresh kernel with `Sharpness` set to 512, after `Initialize` on the
example data: normals bound, no scalars, `F2 = 262144`, `E2 = 4`. -/
def exampleKernelSharp (R : Type) [Field R] : vtkEllipsoidalGaussianKernel R :=
  (Initialize { freshState R with kernel := { (freshState R).kernel with Sharpness := 512 } }
    none (some (exampleDataSet R)) (examplePointData R)).kernel

/-! ## Lemmas -/

/-- Over the reals `v·v = 0` only for the zero vector. -/
theorem Dot_self_eq_zero_iff (v : Vec3 ℝ) : Dot v v = 0 ↔ v = 0 := by
  constructor
  · intro h
    unfold Dot at h
    have h0 : v 0 = 0 := by nlinarith [mul_self_nonneg (v 0), mul_self_nonneg (v 1), mul_self_nonneg (v 2)]
    have h1 : v 1 = 0 := by nlinarith [mul_self_nonneg (v 0), mul_self_nonneg (v 1), mul_self_nonneg (v 2)]
    have h2 : v 2 = 0 := by nlinarith [mul_self_nonneg (v 0), mul_self_nonneg (v 1), mul_self_nonneg (v 2)]
    funext j
    fin_cases j <;> simp [h0, h1, h2]
  · rintro rfl
    simp [Dot]

/-- The test `r2 == 0.0` of the loop succeeds exactly on a point at `x`. -/
theorem r2_eq_zero_iff (x y : Vec3 ℝ) : Dot (offset x y) (offset x y) = 0 ↔ y = x := by
  rw [Dot_self_eq_zero_iff]
  constructor
  · intro h
    funext j
    have := congrFun h j
    simp only [offset, Pi.zero_apply] at this
    linarith
  · rintro rfl
    funext j
    simp [offset]

/-- From an array of three components `GetTuple` fetches the whole tuple,
whatever the buffer held. -/
theorem GetTuple_of_three {R : Type} (a : vtkDataArray R) (h : a.NumberOfComponents = 3)
    (id : Int) (buf : Vec3 R) :
    a.GetTuple id buf = fun j => a.GetComponent id j.val := by
  funext j
  simp [vtkDataArray.GetTuple, h, j.isLt]

/-- Fetching a tuple overwrites what an earlier fetch has written. -/
theorem normalBuffer_normalBuffer {R : Type} (K : vtkEllipsoidalGaussianKernel R)
    (id id1 : Int) (n : Vec3 R) :
    normalBuffer K id (normalBuffer K id1 n) = normalBuffer K id n := by
  unfold normalBuffer
  cases K.NormalsArray with
  | none => rfl
  | some na =>
    funext j
    simp only [vtkDataArray.GetTuple]
    split <;> rfl

theorem unnormalizedWeight_normalBuffer {R : Type} [Field R] [DecidableEq R] (exp sqrt : R → R)
    (K : vtkEllipsoidalGaussianKernel R) (ds : vtkDataSet R) (x n : Vec3 R) (id1 : Int) :
    unnormalizedWeight exp sqrt K ds x (normalBuffer K id1 n) =
      unnormalizedWeight exp sqrt K ds x n := by
  funext id
  simp only [unnormalizedWeight, normalBuffer_normalBuffer]

/-- The first loop without an exact hit: it appends the unnormalized weight of
every id, in order, and adds them to `sum`. -/
theorem weightLoop_done {R : Type} [Field R] [DecidableEq R] (exp sqrt : R → R)
    (K : vtkEllipsoidalGaussianKernel R) (ds : vtkDataSet R) (x : Vec3 R)
    (hds : K.DataSet = some ds) :
    ∀ (ids : List Int) (w : List R) (sum : R) (n : Vec3 R),
      (∀ id ∈ ids, Dot (offset x (ds.GetPoint id)) (offset x (ds.GetPoint id)) ≠ 0) →
      ∃ n1, weightLoop exp sqrt K x ids w sum n =
        some (LoopExit.done (w ++ ids.map (unnormalizedWeight exp sqrt K ds x n))
          (sum + (ids.map (unnormalizedWeight exp sqrt K ds x n)).sum) n1) := by
  intro ids
  induction ids with
  | nil => intro w sum n _; exact ⟨n, by simp [weightLoop]⟩
  | cons id rest ih =>
    intro w sum n h
    have hid := h id (List.mem_cons_self _ _)
    have hrest : ∀ i ∈ rest, Dot (offset x (ds.GetPoint i)) (offset x (ds.GetPoint i)) ≠ 0 :=
      fun i hi => h i (List.mem_cons_of_mem _ hi)
    obtain ⟨n1, hn1⟩ := ih (w ++ [unnormalizedWeight exp sqrt K ds x n id])
      (sum + unnormalizedWeight exp sqrt K ds x n id) (normalBuffer K id n) hrest
    refine ⟨n1, ?_⟩
    rw [weightLoop, hds]
    simp only [hid, if_false]
    rw [unnormalizedWeight_normalBuffer] at hn1
    simp only [unnormalizedWeight] at hn1 ⊢
    rw [hn1]
    simp [List.append_assoc, add_assoc]
    rfl

/-- The first loop with an exact hit: it exits at the first id whose point is
at squared distance 0. -/
theorem weightLoop_hit {R : Type} [Field R] [DecidableEq R] (exp sqrt : R → R)
    (K : vtkEllipsoidalGaussianKernel R) (ds : vtkDataSet R) (x : Vec3 R)
    (hds : K.DataSet = some ds) (k : Int) (post : List Int)
    (hk : Dot (offset x (ds.GetPoint k)) (offset x (ds.GetPoint k)) = 0) :
    ∀ (pre : List Int) (w : List R) (sum : R) (n : Vec3 R),
      (∀ id ∈ pre, Dot (offset x (ds.GetPoint id)) (offset x (ds.GetPoint id)) ≠ 0) →
      weightLoop exp sqrt K x (pre ++ k :: post) w sum n = some (LoopExit.hit k) := by
  intro pre
  induction pre with
  | nil => intro w sum n _; simp [weightLoop, hds, hk]
  | cons id rest ih =>
    intro w sum n h
    have hid := h id (List.mem_cons_self _ _)
    rw [List.cons_append, weightLoop, hds]
    simp only [hid, if_false]
    exact ih _ _ _ (fun i hi => h i (List.mem_cons_of_mem _ hi))

/-- Whenever the first loop runs to its end it has appended one weight per id
and `sum` has grown by their sum. -/
theorem weightLoop_done_inv {R : Type} [Field R] [DecidableEq R] (exp sqrt : R → R)
    (K : vtkEllipsoidalGaussianKernel R) (x : Vec3 R) :
    ∀ (ids : List Int) (w : List R) (sum : R) (n : Vec3 R) (w1 : List R) (sum1 : R)
      (n1 : Vec3 R),
      weightLoop exp sqrt K x ids w sum n = some (LoopExit.done w1 sum1 n1) →
      ∃ ws, w1 = w ++ ws ∧ sum1 = sum + ws.sum ∧ ws.length = ids.length := by
  intro ids
  induction ids with
  | nil =>
    intro w sum n w1 sum1 n1 h
    simp only [weightLoop, Option.some.injEq, LoopExit.done.injEq] at h
    exact ⟨[], by simp [h.1.symm, h.2.1.symm]⟩
  | cons id rest ih =>
    intro w sum n w1 sum1 n1 h
    rw [weightLoop] at h
    cases hds : K.DataSet with
    | none => simp [hds] at h
    | some ds =>
      simp only [hds] at h
      split at h
      · simp at h
      · generalize falloff exp K.F2 K.E2 _ _ _ _ = wi at h
        obtain ⟨ws, h1, h2, h3⟩ := ih _ _ _ _ _ _ h
        refine ⟨wi :: ws, ?_, ?_, ?_⟩
        · rw [h1]; simp
        · rw [h2]; simp [add_assoc]
        · simp [h3]

/-- With a normals array bound, the loop body computes the weight the
specification writes. -/
theorem unnormalizedWeight_eq_specWeight {R : Type} [Field R] [DecidableEq R]
    (exp sqrt : R → R) (K : vtkEllipsoidalGaussianKernel R) (ds : vtkDataSet R)
    (na : vtkDataArray R) (hna : K.NormalsArray = some na) (x n0 : Vec3 R) (id : Int) :
    unnormalizedWeight exp sqrt K ds x n0 id =
      specWeight exp sqrt K.F2 K.E2 (K.ScalarsArray.elim 1 (fun sa => sa.GetComponent id 0))
        x (ds.GetPoint id) (na.GetTuple id n0) := by
  have hs : scalar K id = K.ScalarsArray.elim 1 (fun sa => sa.GetComponent id 0) := by
    unfold scalar
    cases K.ScalarsArray <;> rfl
  simp only [unnormalizedWeight, specWeight, falloff, rxy2, z2, magnitude, normalBuffer, hna, hs,
    sq]
  rfl

/-- The second loop: the sum of the normalized weights. -/
theorem sum_map_div {R : Type} [Field R] (w : List R) (sum : R) :
    (w.map (fun wi => wi / sum)).sum = w.sum / sum := by
  induction w with
  | nil => simp
  | cons a t ih => simp [ih, add_div]

/-- A list with an element satisfying `p` splits at the first such element. -/
theorem exists_first {α : Type} (p : α → Prop) :
    ∀ l : List α, (∃ a ∈ l, p a) →
      ∃ pre k post, l = pre ++ k :: post ∧ (∀ a ∈ pre, ¬ p a) ∧ p k := by
  intro l
  induction l with
  | nil => rintro ⟨a, ha, _⟩; simp at ha
  | cons b t ih =>
    rintro ⟨a, ha, hpa⟩
    by_cases hb : p b
    · exact ⟨[], b, t, rfl, by simp, hb⟩
    · have hat : a ∈ t := by
        rcases List.mem_cons.1 ha with rfl | h
        · exact absurd hpa hb
        · exact h
      obtain ⟨pre, k, post, h1, h2, h3⟩ := ih ⟨a, hat, hpa⟩
      refine ⟨b :: pre, k, post, by rw [h1]; rfl, ?_, h3⟩
      intro c hc
      rcases List.mem_cons.1 hc with rfl | h
      · exact hb
      · exact h2 c h

/-- No point of the list at `x` means no `r2 == 0.0` in the loop. -/
theorem r2_ne_zero_of_ne (ds : vtkDataSet ℝ) (x : Vec3 ℝ) (ids : List Int)
    (hx : ∀ id ∈ ids, ds.GetPoint id ≠ x) :
    ∀ id ∈ ids, Dot (offset x (ds.GetPoint id)) (offset x (ds.GetPoint id)) ≠ 0 :=
  fun id hid h => hx id hid ((r2_eq_zero_iff x (ds.GetPoint id)).1 h)

/-- The call without an exact hit, in closed form. -/
theorem ComputeWeights_no_hit {R : Type} [Field R] [DecidableEq R] (exp sqrt : R → R)
    (K : vtkEllipsoidalGaussianKernel R) (ds : vtkDataSet R) (x : Vec3 R)
    (hds : K.DataSet = some ds) (pIds : List Int) (n0 : Vec3 R)
    (h : ∀ id ∈ pIds, Dot (offset x (ds.GetPoint id)) (offset x (ds.GetPoint id)) ≠ 0) :
    ComputeWeights exp sqrt K x pIds n0 =
      some { numPts := pIds.length, pIds := pIds,
             weights := pIds.map (fun i => unnormalizedWeight exp sqrt K ds x n0 i /
               (pIds.map (unnormalizedWeight exp sqrt K ds x n0)).sum) } := by
  obtain ⟨n1, hn1⟩ := weightLoop_done exp sqrt K ds x hds pIds [] 0 n0 h
  simp only [ComputeWeights, hn1, List.nil_append, zero_add, List.map_map]
  rfl

/-- The call with an exact hit, in closed form: the id list splits at the
first id whose point is at `x`, and the call returns that id alone. -/
theorem ComputeWeights_exact_hit_aux (K : vtkEllipsoidalGaussianKernel ℝ) (ds : vtkDataSet ℝ)
    (x : Vec3 ℝ) (pIds : List Int) (n0 : Vec3 ℝ)
    (hds : K.DataSet = some ds) (hhit : ∃ id ∈ pIds, ds.GetPoint id = x) :
    ∃ pre k post, pIds = pre ++ k :: post ∧ (∀ id ∈ pre, ds.GetPoint id ≠ x) ∧
      ds.GetPoint k = x ∧
      ComputeWeights Real.exp Real.sqrt K x pIds n0 =
        some { numPts := 1, pIds := [k], weights := [1] } := by
  obtain ⟨pre, k, post, h1, h2, h3⟩ := exists_first (fun id => ds.GetPoint id = x) pIds hhit
  refine ⟨pre, k, post, h1, h2, h3, ?_⟩
  have hk : Dot (offset x (ds.GetPoint k)) (offset x (ds.GetPoint k)) = 0 :=
    (r2_eq_zero_iff x (ds.GetPoint k)).2 h3
  have hloop := weightLoop_hit Real.exp Real.sqrt K ds x hds k post hk pre [] 0 n0
    (r2_ne_zero_of_ne ds x pre h2)
  simp only [ComputeWeights, h1, hloop]

/-- What `FreeStructures` leaves of the kernel: the five pointers are `NULL`,
the configuration is untouched. -/
theorem FreeStructures_kernel {R : Type} (S : State R) :
    (FreeStructures S).kernel =
      { S.kernel with Locator := none, DataSet := none, PointData := none,
                      NormalsArray := none, ScalarsArray := none } := by
  obtain ⟨⟨loc, ds, pd, un, us, nn, sn, sf, r, sh, e, f2, e2, na, sa⟩, rc⟩ := S
  cases loc <;> cases ds <;> cases pd <;> cases na <;> cases sa <;> rfl

/-- What `Initialize` leaves of the kernel. -/
theorem Initialize_kernel {R : Type} [Field R] (S : State R)
    (loc : Option (vtkAbstractPointLocator R)) (ds : Option (vtkDataSet R))
    (pd : vtkPointData R) :
    (Initialize S loc ds pd).kernel =
      { S.kernel with
        Locator := loc, DataSet := ds, PointData := some pd,
        ScalarsArray :=
          match pd.GetArray S.kernel.ScalarsArrayName with
          | some sa =>
            if S.kernel.UseScalars = true ∧ sa.NumberOfComponents = 1 then some sa else none
          | none => none,
        NormalsArray :=
          match pd.GetArray S.kernel.NormalsArrayName with
          | some na => if S.kernel.UseNormals = true then some na else none
          | none => none,
        F2 := S.kernel.Sharpness / S.kernel.Radius * (S.kernel.Sharpness / S.kernel.Radius),
        E2 := S.kernel.Eccentricity * S.kernel.Eccentricity } := by
  have h0 : (Superclass_Initialize S loc ds pd).kernel =
      { S.kernel with Locator := loc, DataSet := ds, PointData := some pd,
                      NormalsArray := none, ScalarsArray := none } := by
    simp only [Superclass_Initialize, FreeStructures_kernel]
  unfold Initialize
  generalize Superclass_Initialize S loc ds pd = S0 at h0 ⊢
  obtain ⟨K0, rc0⟩ := S0
  dsimp only at h0
  subst h0
  dsimp only
  cases pd.GetArray S.kernel.ScalarsArrayName with
  | none =>
    dsimp only
    cases pd.GetArray S.kernel.NormalsArrayName with
    | none => rfl
    | some na => by_cases hn : S.kernel.UseNormals = true <;> simp [hn]
  | some sa =>
    dsimp only
    by_cases hs : S.kernel.UseScalars = true ∧ sa.NumberOfComponents = 1
    · rw [if_pos hs, if_pos hs]
      dsimp only
      cases pd.GetArray S.kernel.NormalsArrayName with
      | none => rfl
      | some na => by_cases hn : S.kernel.UseNormals = true <;> simp [hn]
    · rw [if_neg hs, if_neg hs]
      dsimp only
      cases pd.GetArray S.kernel.NormalsArrayName with
      | none => rfl
      | some na => by_cases hn : S.kernel.UseNormals = true <;> simp [hn]

/-- The unnormalized weight in terms of the `z2` and `rxy2` of the point. -/
theorem unnormalizedWeight_eq {R : Type} [Field R] [DecidableEq R] (exp sqrt : R → R)
    (K : vtkEllipsoidalGaussianKernel R) (ds : vtkDataSet R) (x n0 : Vec3 R) (id : Int) :
    unnormalizedWeight exp sqrt K ds x n0 id =
      scalar K id * exp (-K.F2 * (rxy2At sqrt K ds x n0 id / K.E2 + z2At sqrt K ds x n0 id)) :=
  rfl

/-- The in-plane and the normal part add up to the squared distance. -/
theorem rxy2At_add_z2At {R : Type} [Field R] [DecidableEq R] (sqrt : R → R)
    (K : vtkEllipsoidalGaussianKernel R) (ds : vtkDataSet R) (x n0 : Vec3 R) (id : Int) :
    rxy2At sqrt K ds x n0 id + z2At sqrt K ds x n0 id =
      Dot (offset x (ds.GetPoint id)) (offset x (ds.GetPoint id)) := by
  simp only [rxy2At, z2At, rxy2]
  ring

/-- Entry `i` of the weights the call returns without an exact hit. -/
theorem getElem?_map_div {R : Type} [Field R] (f : Int → R) (sum : R) (l : List Int) (i : Nat)
    (hi : i < l.length) :
    (l.map (fun k => f k / sum))[i]? = some (f l[i] / sum) := by
  rw [List.getElem?_map, List.getElem?_eq_getElem hi]
  rfl

/-- On a kernel that holds nothing `FreeStructures` changes nothing, no
reference count either. -/
theorem FreeStructures_of_unbound {R : Type} (S : State R)
    (h1 : S.kernel.Locator = none) (h2 : S.kernel.DataSet = none)
    (h3 : S.kernel.PointData = none) (h4 : S.kernel.NormalsArray = none)
    (h5 : S.kernel.ScalarsArray = none) : FreeStructures S = S := by
  obtain ⟨⟨loc, ds, pd, un, us, nn, sn, sf, r, sh, e, f2, e2, na, sa⟩, rc⟩ := S
  simp only at h1 h2 h3 h4 h5
  subst h1 h2 h3 h4 h5
  rfl

/-- Cauchy-Schwarz for 3-vectors: `(v·n)^2 <= (v·v) (n·n)`. -/
theorem Dot_mul_self_le (v n : Vec3 ℝ) : Dot v n * Dot v n ≤ Dot v v * Dot n n := by
  unfold Dot
  nlinarith [sq_nonneg (v 0 * n 1 - v 1 * n 0), sq_nonneg (v 0 * n 2 - v 2 * n 0),
    sq_nonneg (v 1 * n 2 - v 2 * n 1)]

theorem Dot_self_nonneg (v : Vec3 ℝ) : 0 ≤ Dot v v := by
  unfold Dot
  nlinarith [mul_self_nonneg (v 0), mul_self_nonneg (v 1), mul_self_nonneg (v 2)]

/-- With the magnitude the code derives from the buffer `n` itself, the
squared projection `z2` is at most the squared distance. -/
theorem z2_le_r2 (v n : Vec3 ℝ) :
    z2 v n (if Dot n n = 0 then 1 else Real.sqrt (Dot n n)) ≤ Dot v v := by
  by_cases h : Dot n n = 0
  · have hn : n = 0 := (Dot_self_eq_zero_iff n).1 h
    have hvn : Dot v n = 0 := by simp [hn, Dot]
    simp only [h, if_true, z2, hvn, zero_div, mul_zero]
    exact Dot_self_nonneg v
  · have hpos : 0 < Dot n n := lt_of_le_of_ne (Dot_self_nonneg n) (Ne.symm h)
    simp only [h, if_false, z2]
    rw [div_mul_div_comm, Real.mul_self_sqrt (le_of_lt hpos), div_le_iff₀ hpos]
    exact Dot_mul_self_le v n

/-- `z2` is a square. -/
theorem z2_nonneg (v n : Vec3 ℝ) (mag : ℝ) : 0 ≤ z2 v n mag := mul_self_nonneg _

/-- Writing entry `i` makes the first `i + 1` entries the first `i` old ones
and the new one. -/
theorem take_succ_set {α : Type} (a : α) :
    ∀ (l : List α) (i : Nat), i < l.length → (l.set i a).take (i + 1) = l.take i ++ [a] := by
  intro l
  induction l with
  | nil => intro i hi; simp at hi
  | cons b t ih =>
    intro i hi
    cases i with
    | zero => simp
    | succ k =>
      have hk : k < t.length := by simpa using hi
      simp [ih k hk]

theorem length_SetNumberOfTuples {R : Type} (a : List R) (k : Nat) (junk : R) :
    (SetNumberOfTuples a k junk).length = k := by
  simp only [SetNumberOfTuples, List.length_append, List.length_take, List.length_replicate]
  omega

/-- The first loop with its writes to memory ends as the loop over the
accumulated weights does, and leaves all of memory but the id list and the
weights array as it was. -/
theorem weightLoopIn_eq {R : Type} [Field R] [DecidableEq R] (exp sqrt : R → R) (x : Vec3 R) :
    ∀ (rest : List Int) (i : Nat) (M : Memory R) (sum : R) (n : Vec3 R),
      M.weights.length = i + rest.length →
      weightLoopIn exp sqrt x rest i M sum n =
        (weightLoop exp sqrt M.state.kernel x rest (M.weights.take i) sum n).map
          (LoopExit.toMemory M) := by
  intro rest
  induction rest with
  | nil =>
    intro i M sum n h
    have hi : M.weights.take i = M.weights := List.take_of_length_le (by simp at h; omega)
    simp only [weightLoopIn, weightLoop, Option.map_some', LoopExit.toMemory, hi]
  | cons id rest ih =>
    intro i M sum n h
    rw [weightLoopIn, weightLoop]
    cases hds : M.state.kernel.DataSet with
    | none => rfl
    | some ds =>
      simp only []
      split
      · rfl
      · have hi : i < M.weights.length := by simp at h; omega
        rw [ih (i + 1) _ _ _ (by simp at h ⊢; omega)]
        simp only [take_succ_set _ M.weights i hi]
        congr 1

/-- With no rounding the loop on `double`s is the loop over the field. -/
theorem weightLoopFl_id {R : Type} [Field R] [DecidableEq R] (exp sqrt : R → R)
    (K : vtkEllipsoidalGaussianKernel R) (x : Vec3 R) :
    ∀ (ids : List Int) (w : List R) (sum : R) (n : Vec3 R),
      weightLoopFl id exp sqrt K x ids w sum n = weightLoop exp sqrt K x ids w sum n := by
  intro ids
  induction ids with
  | nil => intro w sum n; rfl
  | cons i rest ih =>
    intro w sum n
    rw [weightLoopFl, weightLoop]
    cases K.DataSet with
    | none => rfl
    | some ds =>
      simp only []
      rw [ih]
      rfl

theorem flush_zero : flush (0 : ℝ) = 0 := by
  simp [flush]

/-- A result of magnitude at least `2^-1075` does not underflow. -/
theorem flush_of_ge (a : ℝ) (h : ((2 : ℝ) ^ 1075)⁻¹ ≤ |a|) : flush a = a := by
  simp only [flush, not_lt.2 h, if_false]

theorem flush_of_le (a : ℝ) (h : (1 : ℝ) / 2 ^ 20 ≤ |a|) : flush a = a := by
  have h1 : ((2 : ℝ) ^ 1075)⁻¹ ≤ 1 / 2 ^ 20 := by
    rw [one_div]
    apply inv_anti₀ (by positivity)
    exact pow_le_pow_right₀ (by norm_num) (by norm_num)
  exact flush_of_ge a (le_trans h1 h)

/-- A result of magnitude below `2^-1075` underflows to 0. -/
theorem flush_of_lt (a : ℝ) (h : |a| < ((2 : ℝ) ^ 1075)⁻¹) : flush a = 0 := by
  simp only [flush, h, if_true]

/-- `exp(-t)` underflows for `t >= 1075`, since `exp(-1) < 1/2`. -/
theorem exp_neg_underflow (t : ℝ) (ht : 1075 ≤ t) : flush (Real.exp (-t)) = 0 := by
  apply flush_of_lt
  rw [abs_of_pos (Real.exp_pos _)]
  have h1 : Real.exp (-t) ≤ Real.exp (-1075) := Real.exp_le_exp.2 (by linarith)
  have h2 : Real.exp (-1075) = Real.exp (-1) ^ 1075 := by
    rw [← Real.exp_nat_mul]
    norm_num
  have h3 : Real.exp (-1) < 2⁻¹ := by
    rw [Real.exp_neg]
    apply inv_strictAnti₀ (by norm_num)
    have := Real.exp_one_gt_d9
    linarith
  have h4 : Real.exp (-1) ^ 1075 < (2⁻¹ : ℝ) ^ 1075 :=
    pow_lt_pow_left₀ h3 (le_of_lt (Real.exp_pos _)) (by norm_num)
  rw [inv_pow] at h4
  linarith

theorem exampleKernel_DataSet : (exampleKernel ℝ).DataSet = some (exampleDataSet ℝ) := rfl

theorem exampleKernel_NormalsArray :
    (exampleKernel ℝ).NormalsArray = some (exampleNormals ℝ) := rfl

theorem exampleKernel_ScalarsArray : (exampleKernel ℝ).ScalarsArray = none := rfl

theorem exampleKernel_F2 : (exampleKernel ℝ).F2 = 4 := by
  show (2 / 1 : ℝ) * (2 / 1) = 4
  norm_num

theorem exampleKernel_E2 : (exampleKernel ℝ).E2 = 4 := by
  show (2 : ℝ) * 2 = 4
  norm_num

/-- Point `id` of the example data set is not at `(c, 0, 0)` unless `id = c`. -/
theorem examplePoint_ne (id : Int) (c : ℝ) (h : (id : ℝ) ≠ c) :
    (exampleDataSet ℝ).GetPoint id ≠ ![c, 0, 0] := by
  intro h1
  have h2 := congrFun h1 0
  simp [exampleDataSet] at h2
  exact h h2

/-- Neither point 0 nor point 1 of the example data set is at `(c, 0, 0)` for
`c` other than 0 and 1. -/
theorem examplePoints_ne (c : ℝ) (h0 : (0 : ℝ) ≠ c) (h1 : (1 : ℝ) ≠ c) :
    ∀ id ∈ ([0, 1] : List Int), (exampleDataSet ℝ).GetPoint id ≠ ![c, 0, 0] := by
  intro id hid
  simp only [List.mem_cons, List.mem_singleton, List.not_mem_nil, or_false] at hid
  rcases hid with rfl | rfl
  · exact examplePoint_ne 0 c (by simpa using h0)
  · exact examplePoint_ne 1 c (by simpa using h1)

theorem exampleNormals_GetTuple (id : Int) (n : Vec3 ℝ) :
    (exampleNormals ℝ).GetTuple id n = ![0, 0, 1] := by
  funext j
  fin_cases j <;> simp [vtkDataArray.GetTuple, exampleNormals]

/-- The first loop on the example kernel, `x` halfway between the points 0
and 1. -/
theorem exampleKernel_weightLoop :
    weightLoop Real.exp Real.sqrt (exampleKernel ℝ) ![1/2, 0, 0] [0, 1] [] 0 ![0, 0, 0] =
      some (LoopExit.done [Real.exp (-1/4), Real.exp (-1/4)]
        (Real.exp (-1/4) + Real.exp (-1/4)) ![0, 0, 1]) := by
  have e1 : (-(4 * ((2⁻¹ - 1) * (2⁻¹ - 1) / 4)) : ℝ) = -1/4 := by norm_num
  have e2 : (-(4 * (2⁻¹ * 2⁻¹ / 4)) : ℝ) = -1/4 := by norm_num
  simp [weightLoop, exampleKernel_DataSet, exampleKernel_NormalsArray, exampleKernel_ScalarsArray,
    exampleKernel_F2, exampleKernel_E2, normalBuffer, magnitude, scalar, falloff, rxy2, z2,
    exampleNormals_GetTuple, Dot, offset, exampleDataSet, e1, e2]
  norm_num

theorem exampleKernelBare_DataSet :
    (exampleKernelBare ℝ).DataSet = some (exampleDataSet ℝ) := rfl

theorem exampleKernelBare_NormalsArray : (exampleKernelBare ℝ).NormalsArray = none := rfl

theorem exampleKernelBare_ScalarsArray : (exampleKernelBare ℝ).ScalarsArray = none := rfl

theorem exampleKernelBare_F2 : (exampleKernelBare ℝ).F2 = 4 := by
  show (2 / 1 : ℝ) * (2 / 1) = 4
  norm_num

theorem exampleKernelBare_E2 : (exampleKernelBare ℝ).E2 = 4 := by
  show (2 : ℝ) * 2 = 4
  norm_num

theorem exampleKernelIsotropic_DataSet :
    (exampleKernelIsotropic ℝ).DataSet = some (exampleDataSet ℝ) := rfl

theorem exampleKernelIsotropic_E2 : (exampleKernelIsotropic ℝ).E2 = 1 := by
  show (1 : ℝ) * 1 = 1
  norm_num

theorem exampleKernelScalars_DataSet :
    (exampleKernelScalars ℝ).DataSet = some (exampleDataSet ℝ) := rfl

/-- Without a normals array the weights returned for the points 0 and 1 seen
from `x = (1/4, 0, 0)` depend on what the buffer `n` holds on entry. -/
theorem exampleKernelBare_ComputeWeights_ne :
    ComputeWeights Real.exp Real.sqrt (exampleKernelBare ℝ) ![1/4, 0, 0] [0, 1] ![1, 0, 0] ≠
      ComputeWeights Real.exp Real.sqrt (exampleKernelBare ℝ) ![1/4, 0, 0] [0, 1] ![0, 0, 0] := by
  have hx := r2_ne_zero_of_ne (exampleDataSet ℝ) ![1/4, 0, 0] [0, 1]
    (examplePoints_ne (1/4) (by norm_num) (by norm_num))
  rw [ComputeWeights_no_hit Real.exp Real.sqrt (exampleKernelBare ℝ) (exampleDataSet ℝ)
      ![1/4, 0, 0] exampleKernelBare_DataSet [0, 1] ![1, 0, 0] hx,
    ComputeWeights_no_hit Real.exp Real.sqrt (exampleKernelBare ℝ) (exampleDataSet ℝ)
      ![1/4, 0, 0] exampleKernelBare_DataSet [0, 1] ![0, 0, 0] hx]
  have e1 : (-(4 * (4⁻¹ * 4⁻¹)) : ℝ) = -1/4 := by norm_num
  have e2 : (-(4 * ((4⁻¹ - 1) * (4⁻¹ - 1))) : ℝ) = -9/4 := by norm_num
  have e3 : (-(4 * (4⁻¹ * 4⁻¹ / 4)) : ℝ) = -1/16 := by norm_num
  have e4 : (-(4 * ((4⁻¹ - 1) * (4⁻¹ - 1) / 4)) : ℝ) = -9/16 := by norm_num
  simp [unnormalizedWeight, exampleKernelBare_NormalsArray,
      exampleKernelBare_ScalarsArray, exampleKernelBare_F2, exampleKernelBare_E2, normalBuffer,
      magnitude, scalar, falloff, rxy2, z2, Dot, offset, exampleDataSet, e1, e2, e3, e4]
  intro h _
  have p1 : (0 : ℝ) < Real.exp (-4⁻¹) + Real.exp (-9 / 4) :=
    add_pos (Real.exp_pos _) (Real.exp_pos _)
  have p2 : (0 : ℝ) < Real.exp (-1 / 16) + Real.exp (-9 / 16) :=
    add_pos (Real.exp_pos _) (Real.exp_pos _)
  rw [div_eq_div_iff (ne_of_gt p1) (ne_of_gt p2)] at h
  have h2 : Real.exp (-4⁻¹) * Real.exp (-9 / 16) = Real.exp (-1 / 16) * Real.exp (-9 / 4) := by
    linear_combination h
  rw [← Real.exp_add, ← Real.exp_add] at h2
  have h3 := Real.exp_injective h2
  norm_num at h3

theorem exampleKernelScalars_NormalsArray :
    (exampleKernelScalars ℝ).NormalsArray = some (exampleNormals ℝ) := rfl

theorem exampleKernelScalars_F2 : (exampleKernelScalars ℝ).F2 = 4 := by
  show (2 / 1 : ℝ) * (2 / 1) = 4
  norm_num

theorem exampleKernelScalars_E2 : (exampleKernelScalars ℝ).E2 = 4 := by
  show (2 : ℝ) * 2 = 4
  norm_num

/-- The unnormalized weight on the example data, `x` halfway between the
points 0 and 1, for a kernel that agrees with `exampleKernelScalars` but for
the scalars: the scalar times `exp(-1/4)`. -/
theorem exampleKernelScalars_unnormalizedWeight (sa : vtkDataArray ℝ) (n0 : Vec3 ℝ) (id : Int)
    (hid : id = 0 ∨ id = 1) :
    unnormalizedWeight Real.exp Real.sqrt
        { exampleKernelScalars ℝ with ScalarsArray := some sa } (exampleDataSet ℝ)
        ![1/2, 0, 0] n0 id = sa.GetComponent id 0 * Real.exp (-1/4) := by
  have e1 : (-(4 * ((2⁻¹ - 1) * (2⁻¹ - 1) / 4)) : ℝ) = -1/4 := by norm_num
  have e2 : (-(4 * (2⁻¹ * 2⁻¹ / 4)) : ℝ) = -1/4 := by norm_num
  rcases hid with rfl | rfl <;>
    simp [unnormalizedWeight, exampleKernelScalars_NormalsArray, exampleKernelScalars_F2,
      exampleKernelScalars_E2, normalBuffer, magnitude, scalar, falloff, rxy2, z2,
      exampleNormals_GetTuple, Dot, offset, exampleDataSet, e1, e2]

/-- The first loop on the example kernel with the scalar 0 bound at every
point, `x` halfway between the points 0 and 1: the weights and their sum are
0. -/
theorem exampleKernelZeroScalars_weightLoop :
    weightLoop Real.exp Real.sqrt (exampleKernelZeroScalars ℝ) ![1/2, 0, 0] [0, 1] [] 0
        ![0, 0, 0] = some (LoopExit.done [0, 0] 0 ![0, 0, 1]) := by
  have hds : (exampleKernelZeroScalars ℝ).DataSet = some (exampleDataSet ℝ) := rfl
  have hna : (exampleKernelZeroScalars ℝ).NormalsArray = some (exampleNormals ℝ) := rfl
  have hsa : (exampleKernelZeroScalars ℝ).ScalarsArray = some (exampleScalarsZero ℝ) := rfl
  simp [weightLoop, hds, hna, hsa, normalBuffer, magnitude, scalar, falloff,
    exampleNormals_GetTuple, Dot, offset, exampleDataSet, exampleScalarsZero]
  norm_num

/-- The sum of the unnormalized weights on the example kernel with the scalar
3 bound at every point, `x` halfway between the points 0 and 1, is not 0. -/
theorem exampleKernelScalars_sum_ne_zero :
    (([0, 1] : List Int).map (unnormalizedWeight Real.exp Real.sqrt (exampleKernelScalars ℝ)
      (exampleDataSet ℝ) ![1/2, 0, 0] ![0, 0, 0])).sum ≠ 0 := by
  have h0 := exampleKernelScalars_unnormalizedWeight (exampleScalars ℝ) ![0, 0, 0] 0 (Or.inl rfl)
  have h1 := exampleKernelScalars_unnormalizedWeight (exampleScalars ℝ) ![0, 0, 0] 1 (Or.inr rfl)
  have h0a : unnormalizedWeight Real.exp Real.sqrt (exampleKernelScalars ℝ) (exampleDataSet ℝ)
      ![1/2, 0, 0] ![0, 0, 0] 0 = 3 * Real.exp (-1/4) := h0
  have h1a : unnormalizedWeight Real.exp Real.sqrt (exampleKernelScalars ℝ) (exampleDataSet ℝ)
      ![1/2, 0, 0] ![0, 0, 0] 1 = 3 * Real.exp (-1/4) := h1
  simp only [List.map_cons, List.map_nil, List.sum_cons, List.sum_nil, h0a, h1a]
  have hpos := Real.exp_pos (-1/4)
  linarith

theorem exampleKernelSharp_F2 : (exampleKernelSharp ℝ).F2 = 262144 := by
  show (512 / 1 : ℝ) * (512 / 1) = 262144
  norm_num

theorem exampleKernelSharp_E2 : (exampleKernelSharp ℝ).E2 = 4 := by
  show (2 : ℝ) * 2 = 4
  norm_num

/-- The first loop on `double`s for the kernel with Sharpness 512 and
`x = (1/4, 0, 0)`: the exponents are -4096 and -36864, both `exp` underflow,
both weights and the sum are 0. -/
theorem exampleKernelSharp_weightLoopFl :
    weightLoopFl flush Real.exp Real.sqrt (exampleKernelSharp ℝ) ![1/4, 0, 0] [0, 1] [] 0
        ![0, 0, 0] = some (LoopExit.done [0, 0] 0 ![0, 0, 1]) := by
  have hds : (exampleKernelSharp ℝ).DataSet = some (exampleDataSet ℝ) := rfl
  have hna : (exampleKernelSharp ℝ).NormalsArray = some (exampleNormals ℝ) := rfl
  have hsa : (exampleKernelSharp ℝ).ScalarsArray = none := rfl
  have f1 : flush (4⁻¹ : ℝ) = 4⁻¹ := flush_of_le _ (by norm_num [abs_of_pos])
  have f2 : flush (4⁻¹ * 4⁻¹ : ℝ) = 4⁻¹ * 4⁻¹ := flush_of_le _ (by norm_num [abs_of_pos])
  have f3 : flush (1 : ℝ) = 1 := flush_of_le _ (by norm_num)
  have f4 : flush (4⁻¹ * 4⁻¹ / 4 : ℝ) = 4⁻¹ * 4⁻¹ / 4 := flush_of_le _ (by norm_num [abs_of_pos])
  have f5 : flush (4⁻¹ - 1 : ℝ) = 4⁻¹ - 1 := flush_of_le _ (by norm_num [abs_of_neg])
  have f6 : flush ((4⁻¹ - 1) * (4⁻¹ - 1) : ℝ) = (4⁻¹ - 1) * (4⁻¹ - 1) :=
    flush_of_le _ (by norm_num [abs_of_pos])
  have f7 : flush ((4⁻¹ - 1) * (4⁻¹ - 1) / 4 : ℝ) = (4⁻¹ - 1) * (4⁻¹ - 1) / 4 :=
    flush_of_le _ (by norm_num [abs_of_pos])
  have f8 : flush (-(262144 * (4⁻¹ * 4⁻¹ / 4)) : ℝ) = -4096 := by
    rw [flush_of_le _ (by norm_num [abs_of_pos])]
    norm_num
  have f9 : flush (-(262144 * ((4⁻¹ - 1) * (4⁻¹ - 1) / 4)) : ℝ) = -36864 := by
    rw [flush_of_le _ (by norm_num [abs_of_pos])]
    norm_num
  have g1 : flush (Real.exp (-4096)) = 0 := exp_neg_underflow 4096 (by norm_num)
  have g2 : flush (Real.exp (-36864)) = 0 := exp_neg_underflow 36864 (by norm_num)
  simp [weightLoopFl, hds, hna, hsa, exampleKernelSharp_F2, exampleKernelSharp_E2, normalBuffer,
    magnitudeFl, scalar, falloffFl, rxy2Fl, z2Fl, exampleNormals_GetTuple, DotFl, offsetFl,
    exampleDataSet, flush_zero, f1, f2, f3, f4, f5, f6, f7, f8, f9, g1, g2]
  norm_num

/-! ## Properties of the kernel -/

/-- C1: with a data set and a normals array bound and no point of the id list
at `x`, `ComputeWeights` returns the ids unchanged and at every position the
weight `w_i / Σ_j w_j`, where `w_i` is the weight of the specification
(`specWeight`) for `v = x - y_i`, for the normal `n_i` that `GetTuple` fetches
from the normals array (its tuple, for an array of three components) and for
`s_i` the bound scalar, or 1 without a scalars array. -/
theorem ComputeWeights_eq_specWeight (K : vtkEllipsoidalGaussianKernel ℝ) (ds : vtkDataSet ℝ)
    (na : vtkDataArray ℝ) (x : Vec3 ℝ) (pIds : List Int) (n0 : Vec3 ℝ)
    (hds : K.DataSet = some ds) (hna : K.NormalsArray = some na)
    (hx : ∀ id ∈ pIds, ds.GetPoint id ≠ x) :
    ComputeWeights Real.exp Real.sqrt K x pIds n0 =
      some { numPts := pIds.length, pIds := pIds,
             weights := pIds.map (fun i =>
               specWeight Real.exp Real.sqrt K.F2 K.E2
                   (K.ScalarsArray.elim 1 (fun sa => sa.GetComponent i 0))
                   x (ds.GetPoint i) (na.GetTuple i n0) /
                 (pIds.map (fun j =>
                   specWeight Real.exp Real.sqrt K.F2 K.E2
                     (K.ScalarsArray.elim 1 (fun sa => sa.GetComponent j 0))
                     x (ds.GetPoint j) (na.GetTuple j n0))).sum) } := by
  rw [ComputeWeights_no_hit Real.exp Real.sqrt K ds x hds pIds n0 (r2_ne_zero_of_ne ds x pIds hx)]
  have hfun : unnormalizedWeight Real.exp Real.sqrt K ds x n0 = fun j =>
      specWeight Real.exp Real.sqrt K.F2 K.E2
        (K.ScalarsArray.elim 1 (fun sa => sa.GetComponent j 0))
        x (ds.GetPoint j) (na.GetTuple j n0) :=
    funext (unnormalizedWeight_eq_specWeight Real.exp Real.sqrt K ds na hna x n0)
  rw [hfun]

/-- C1 at the example kernel (normals `(0,0,1)`, `F2 = E2 = 4`), `x` halfway
between the points 0 and 1: both weights are `1/2`. -/
theorem ComputeWeights_eq_specWeight_witness :
    ComputeWeights Real.exp Real.sqrt (exampleKernel ℝ) ![1/2, 0, 0] [0, 1] ![0, 0, 0] =
      some { numPts := 2, pIds := [0, 1], weights := [1/2, 1/2] } := by
  rw [ComputeWeights_eq_specWeight (exampleKernel ℝ) (exampleDataSet ℝ) (exampleNormals ℝ)
    ![1/2, 0, 0] [0, 1] ![0, 0, 0] exampleKernel_DataSet exampleKernel_NormalsArray
    (examplePoints_ne (1/2) (by norm_num) (by norm_num))]
  have e : (-(4 * ((2⁻¹ - 1) * (2⁻¹ - 1) / 4)) : ℝ) = -(4 * (2⁻¹ * 2⁻¹ / 4)) := by norm_num
  have hpos := Real.exp_pos (-(4 * (2⁻¹ * 2⁻¹ / 4)))
  simp [specWeight, exampleKernel_ScalarsArray, exampleKernel_F2, exampleKernel_E2, Dot,
    exampleDataSet, exampleNormals, vtkDataArray.GetTuple, e]
  field_simp
  ring

/-- C2: when the first loop of `ComputeWeights` runs to its end (no exact hit)
and the sum of the unnormalized weights it has accumulated is positive (so
the id list is not empty), the returned weights sum to exactly 1. -/
theorem ComputeWeights_sum_eq_one (K : vtkEllipsoidalGaussianKernel ℝ) (x : Vec3 ℝ)
    (pIds : List Int) (n0 : Vec3 ℝ) (w : List ℝ) (sum : ℝ) (n : Vec3 ℝ)
    (hloop : weightLoop Real.exp Real.sqrt K x pIds [] 0 n0 = some (LoopExit.done w sum n))
    (hpos : 0 < sum) :
    pIds ≠ [] ∧ sum = w.sum ∧
    ∃ r, ComputeWeights Real.exp Real.sqrt K x pIds n0 = some r ∧ r.pIds = pIds ∧
      r.weights = w.map (fun wi => wi / sum) ∧ r.weights.sum = 1 := by
  obtain ⟨ws, h1, h2, h3⟩ := weightLoop_done_inv Real.exp Real.sqrt K x pIds [] 0 n0 w sum n hloop
  simp only [List.nil_append, zero_add] at h1 h2
  subst h1
  refine ⟨?_, h2, ?_⟩
  · rintro rfl
    have : w = [] := List.length_eq_zero.1 h3
    subst this
    simp at h2
    exact absurd h2 (ne_of_gt hpos)
  · refine ⟨{ numPts := pIds.length, pIds := pIds, weights := w.map (fun wi => wi / sum) },
      by simp only [ComputeWeights, hloop], rfl, rfl, ?_⟩
    simp only [sum_map_div]
    rw [← h2]
    exact div_self (ne_of_gt hpos)

/-- C2 at the example kernel, `x` halfway between the points 0 and 1: the
loop leaves the sum `exp(-1/4) + exp(-1/4) > 0` and the returned weights sum
to 1. -/
theorem ComputeWeights_sum_eq_one_witness :
    ([0, 1] : List Int) ≠ [] ∧
    Real.exp (-1/4) + Real.exp (-1/4) = [Real.exp (-1/4), Real.exp (-1/4)].sum ∧
    ∃ r, ComputeWeights Real.exp Real.sqrt (exampleKernel ℝ) ![1/2, 0, 0] [0, 1] ![0, 0, 0] =
        some r ∧ r.pIds = [0, 1] ∧
      r.weights = [Real.exp (-1/4), Real.exp (-1/4)].map
        (fun wi => wi / (Real.exp (-1/4) + Real.exp (-1/4))) ∧
      r.weights.sum = 1 :=
  ComputeWeights_sum_eq_one (exampleKernel ℝ) ![1/2, 0, 0] [0, 1] ![0, 0, 0]
    [Real.exp (-1/4), Real.exp (-1/4)] (Real.exp (-1/4) + Real.exp (-1/4)) ![0, 0, 1]
    exampleKernel_weightLoop (add_pos (Real.exp_pos _) (Real.exp_pos _))

/-- C5: after `Initialize`, `F2 = (Sharpness / Radius)^2` and
`E2 = Eccentricity^2` for the values of `Sharpness`, `Radius` and
`Eccentricity` the kernel holds (the ones it held before the call),
whatever `F2` and `E2` were. -/
theorem Initialize_F2_E2 (S : State ℝ) (loc : Option (vtkAbstractPointLocator ℝ))
    (ds : Option (vtkDataSet ℝ)) (pd : vtkPointData ℝ) :
    (Initialize S loc ds pd).kernel.F2 =
        ((Initialize S loc ds pd).kernel.Sharpness / (Initialize S loc ds pd).kernel.Radius) ^ 2 ∧
      (Initialize S loc ds pd).kernel.E2 = (Initialize S loc ds pd).kernel.Eccentricity ^ 2 ∧
      (Initialize S loc ds pd).kernel.Sharpness = S.kernel.Sharpness ∧
      (Initialize S loc ds pd).kernel.Radius = S.kernel.Radius ∧
      (Initialize S loc ds pd).kernel.Eccentricity = S.kernel.Eccentricity := by
  rw [Initialize_kernel]
  exact ⟨(sq _).symm, (sq _).symm, rfl, rfl, rfl⟩

/-- C6: after `Initialize`, a scalars array is bound exactly when
`UseScalars` is on and the point data has an array named `ScalarsArrayName`
with one component, and then it is that array; a normals array is bound
exactly when `UseNormals` is on and the point data has an array named
`NormalsArrayName`, of any number of components, and then it is that array. -/
theorem Initialize_bindings (S : State ℝ) (loc : Option (vtkAbstractPointLocator ℝ))
    (ds : Option (vtkDataSet ℝ)) (pd : vtkPointData ℝ) :
    ((∃ a, (Initialize S loc ds pd).kernel.ScalarsArray = some a) ↔
        (S.kernel.UseScalars = true ∧
          ∃ a, pd.GetArray S.kernel.ScalarsArrayName = some a ∧ a.NumberOfComponents = 1)) ∧
      (∀ a, (Initialize S loc ds pd).kernel.ScalarsArray = some a →
        pd.GetArray S.kernel.ScalarsArrayName = some a) ∧
      ((∃ a, (Initialize S loc ds pd).kernel.NormalsArray = some a) ↔
        (S.kernel.UseNormals = true ∧ ∃ a, pd.GetArray S.kernel.NormalsArrayName = some a)) ∧
      (∀ a, (Initialize S loc ds pd).kernel.NormalsArray = some a →
        pd.GetArray S.kernel.NormalsArrayName = some a) ∧
      (Initialize S loc ds pd).kernel.UseScalars = S.kernel.UseScalars ∧
      (Initialize S loc ds pd).kernel.UseNormals = S.kernel.UseNormals ∧
      (Initialize S loc ds pd).kernel.ScalarsArrayName = S.kernel.ScalarsArrayName ∧
      (Initialize S loc ds pd).kernel.NormalsArrayName = S.kernel.NormalsArrayName := by
  rw [Initialize_kernel]
  refine ⟨?_, ?_, ?_, ?_, rfl, rfl, rfl, rfl⟩
  · cases pd.GetArray S.kernel.ScalarsArrayName with
    | none => simp
    | some sa =>
      by_cases hs : S.kernel.UseScalars = true ∧ sa.NumberOfComponents = 1
      · simp [hs]
      · simp only [hs, if_false]
        constructor
        · rintro ⟨a, ha⟩
          simp at ha
        · rintro ⟨h1, a, h2, h3⟩
          cases h2
          exact absurd ⟨h1, h3⟩ hs
  · intro a
    cases pd.GetArray S.kernel.ScalarsArrayName with
    | none => simp
    | some sa =>
      by_cases hs : S.kernel.UseScalars = true ∧ sa.NumberOfComponents = 1 <;> simp [hs]
  · cases pd.GetArray S.kernel.NormalsArrayName with
    | none => simp
    | some na => by_cases hn : S.kernel.UseNormals = true <;> simp [hn]
  · intro a
    cases pd.GetArray S.kernel.NormalsArrayName with
    | none => simp
    | some na => by_cases hn : S.kernel.UseNormals = true <;> simp [hn]

/-- C7, the code at a failing input: the kernel after `Initialize` with
Radius 1, Sharpness 2, Eccentricity 2 and no normals or scalars bound, `x` at
distance 0.5 from point 0.  When the uninitialised buffer `n` holds
`(1, 0, 0)` the loop computes the unnormalized weight `exp(-1)`; when it
holds `(0, 0, 0)` the loop computes `exp(-1/4)`, the value
`exp(-F2 * r2 / E2)` of the specification; the two differ.  With two points
in the list the weights the call returns differ between the two buffers as
well. -/
theorem weightLoop_reads_uninitialized_normal :
    weightLoop Real.exp Real.sqrt (exampleKernelBare ℝ) ![1/2, 0, 0] [0] [] 0 ![1, 0, 0] =
        some (LoopExit.done [Real.exp (-1)] (Real.exp (-1)) ![1, 0, 0]) ∧
      weightLoop Real.exp Real.sqrt (exampleKernelBare ℝ) ![1/2, 0, 0] [0] [] 0 ![0, 0, 0] =
        some (LoopExit.done [Real.exp (-1/4)] (Real.exp (-1/4)) ![0, 0, 0]) ∧
      Real.exp (-1) ≠ Real.exp (-1/4) ∧
      ComputeWeights Real.exp Real.sqrt (exampleKernelBare ℝ) ![1/4, 0, 0] [0, 1] ![1, 0, 0] ≠
        ComputeWeights Real.exp Real.sqrt (exampleKernelBare ℝ) ![1/4, 0, 0] [0, 1]
          ![0, 0, 0] := by
  have e1 : (-(4 * (2⁻¹ * 2⁻¹ / 4)) : ℝ) = -1/4 := by norm_num
  have e2 : (-(4 * (2⁻¹ * 2⁻¹)) : ℝ) = -1 := by norm_num
  refine ⟨?_, ?_, ?_, exampleKernelBare_ComputeWeights_ne⟩
  · simp [weightLoop, exampleKernelBare_DataSet, exampleKernelBare_NormalsArray,
      exampleKernelBare_ScalarsArray, exampleKernelBare_F2, exampleKernelBare_E2, normalBuffer,
      magnitude, scalar, falloff, rxy2, z2, Dot, offset, exampleDataSet, e2]
  · simp [weightLoop, exampleKernelBare_DataSet, exampleKernelBare_NormalsArray,
      exampleKernelBare_ScalarsArray, exampleKernelBare_F2, exampleKernelBare_E2, normalBuffer,
      magnitude, scalar, falloff, rxy2, z2, Dot, offset, exampleDataSet, e1]
  · intro h
    have := Real.exp_injective h
    norm_num at this

/-- C8: with `E2 = 1` and neither normals nor scalars bound, whatever the
buffer `n` holds on entry (`n0`), the unnormalized weight of every point is
the isotropic Gaussian `exp(-F2 * r2)`, and a call without an exact hit
returns the weights of the direct isotropic computation
`exp(-F2 * r2_i) / Σ_j exp(-F2 * r2_j)`. -/
theorem ComputeWeights_isotropic (K : vtkEllipsoidalGaussianKernel ℝ) (ds : vtkDataSet ℝ)
    (x : Vec3 ℝ) (pIds : List Int) (n0 : Vec3 ℝ)
    (hds : K.DataSet = some ds) (hE : K.E2 = 1) (_hna : K.NormalsArray = none)
    (hsa : K.ScalarsArray = none) (hx : ∀ id ∈ pIds, ds.GetPoint id ≠ x) :
    (∀ id, unnormalizedWeight Real.exp Real.sqrt K ds x n0 id =
        Real.exp (-K.F2 * ((x 0 - ds.GetPoint id 0) ^ 2 + (x 1 - ds.GetPoint id 1) ^ 2 +
          (x 2 - ds.GetPoint id 2) ^ 2))) ∧
      ComputeWeights Real.exp Real.sqrt K x pIds n0 =
        some { numPts := pIds.length, pIds := pIds,
               weights := isotropicWeights Real.exp K.F2 ds x pIds } := by
  have hw : ∀ id, unnormalizedWeight Real.exp Real.sqrt K ds x n0 id =
      Real.exp (-K.F2 * ((x 0 - ds.GetPoint id 0) ^ 2 + (x 1 - ds.GetPoint id 1) ^ 2 +
        (x 2 - ds.GetPoint id 2) ^ 2)) := by
    intro id
    have hs : scalar K id = 1 := by simp [scalar, hsa]
    have hr := rxy2At_add_z2At Real.sqrt K ds x n0 id
    rw [unnormalizedWeight_eq, hs, hE, div_one, hr, one_mul]
    congr 2
    simp only [Dot, offset]
    ring
  refine ⟨hw, ?_⟩
  rw [ComputeWeights_no_hit Real.exp Real.sqrt K ds x hds pIds n0 (r2_ne_zero_of_ne ds x pIds hx)]
  have hfun : unnormalizedWeight Real.exp Real.sqrt K ds x n0 = fun id =>
      Real.exp (-K.F2 * ((x 0 - ds.GetPoint id 0) ^ 2 + (x 1 - ds.GetPoint id 1) ^ 2 +
        (x 2 - ds.GetPoint id 2) ^ 2)) := funext hw
  rw [hfun]
  rfl

/-- C8 at the example kernel with Eccentricity 1, `x` halfway between the
points 0 and 1, the buffer `n` holding `(1, 0, 0)` on entry. -/
theorem ComputeWeights_isotropic_witness :
    (∀ id, unnormalizedWeight Real.exp Real.sqrt (exampleKernelIsotropic ℝ) (exampleDataSet ℝ)
        ![1/2, 0, 0] ![1, 0, 0] id =
        Real.exp (-(exampleKernelIsotropic ℝ).F2 *
          (((![1/2, 0, 0] : Vec3 ℝ) 0 - (exampleDataSet ℝ).GetPoint id 0) ^ 2 +
           ((![1/2, 0, 0] : Vec3 ℝ) 1 - (exampleDataSet ℝ).GetPoint id 1) ^ 2 +
           ((![1/2, 0, 0] : Vec3 ℝ) 2 - (exampleDataSet ℝ).GetPoint id 2) ^ 2))) ∧
      ComputeWeights Real.exp Real.sqrt (exampleKernelIsotropic ℝ) ![1/2, 0, 0] [0, 1]
          ![1, 0, 0] =
        some { numPts := ([0, 1] : List Int).length, pIds := [0, 1],
               weights := isotropicWeights Real.exp (exampleKernelIsotropic ℝ).F2
                 (exampleDataSet ℝ) ![1/2, 0, 0] [0, 1] } :=
  ComputeWeights_isotropic (exampleKernelIsotropic ℝ) (exampleDataSet ℝ) ![1/2, 0, 0] [0, 1]
    ![1, 0, 0] exampleKernelIsotropic_DataSet exampleKernelIsotropic_E2 rfl rfl
    (examplePoints_ne (1/2) (by norm_num) (by norm_num))

/-- C9 fails on `double`s: after `Initialize` with Radius 1, Sharpness 512 and
Eccentricity 2 on the example data (no scalars bound), for `x = (1/4, 0, 0)`
and the id list `[0, 1]` there is no exact hit, both points have `z2 = 0` and
`rxy2` is `1/16` at point 0 and `9/16` at point 1; `exp(-4096)` and
`exp(-36864)` underflow, the sum is `0.0` and both returned weights are
`0.0 / 0.0`, NaN, so that the weight of point 0 is not `>=` the weight of
point 1. -/
theorem ComputeWeightsFl_nan_not_monotone :
    ComputeWeightsFl flush Real.exp Real.sqrt (exampleKernelSharp ℝ) ![1/4, 0, 0] [0, 1]
        ![0, 0, 0] =
        some { numPts := 2, pIds := [0, 1],
               weights := [DoubleQuotient.nan, DoubleQuotient.nan] } ∧
      (exampleKernelSharp ℝ).ScalarsArray = none ∧
      z2AtFl flush Real.sqrt (exampleKernelSharp ℝ) (exampleDataSet ℝ) ![1/4, 0, 0]
          ![0, 0, 0] 0 =
        z2AtFl flush Real.sqrt (exampleKernelSharp ℝ) (exampleDataSet ℝ) ![1/4, 0, 0]
          ![0, 0, 0] 1 ∧
      rxy2AtFl flush Real.sqrt (exampleKernelSharp ℝ) (exampleDataSet ℝ) ![1/4, 0, 0]
          ![0, 0, 0] 0 <
        rxy2AtFl flush Real.sqrt (exampleKernelSharp ℝ) (exampleDataSet ℝ) ![1/4, 0, 0]
          ![0, 0, 0] 1 ∧
      ¬ DoubleQuotient.ge (DoubleQuotient.nan : DoubleQuotient ℝ) DoubleQuotient.nan := by
  have hna : (exampleKernelSharp ℝ).NormalsArray = some (exampleNormals ℝ) := rfl
  have f1 : flush (4⁻¹ : ℝ) = 4⁻¹ := flush_of_le _ (by norm_num [abs_of_pos])
  have f2 : flush (4⁻¹ * 4⁻¹ : ℝ) = 4⁻¹ * 4⁻¹ := flush_of_le _ (by norm_num [abs_of_pos])
  have f3 : flush (1 : ℝ) = 1 := flush_of_le _ (by norm_num)
  have f5 : flush (4⁻¹ - 1 : ℝ) = 4⁻¹ - 1 := flush_of_le _ (by norm_num [abs_of_neg])
  have f6 : flush ((4⁻¹ - 1) * (4⁻¹ - 1) : ℝ) = (4⁻¹ - 1) * (4⁻¹ - 1) :=
    flush_of_le _ (by norm_num [abs_of_pos])
  refine ⟨?_, rfl, ?_, ?_, ?_⟩
  · simp only [ComputeWeightsFl, exampleKernelSharp_weightLoopFl]
    simp [divFl]
  · simp [z2AtFl, z2Fl, magnitudeFl, normalBuffer, hna, exampleNormals_GetTuple, DotFl,
      offsetFl, exampleDataSet, flush_zero, f1, f3, f5]
  · simp [rxy2AtFl, rxy2Fl, z2Fl, magnitudeFl, normalBuffer, hna, exampleNormals_GetTuple,
      DotFl, offsetFl, exampleDataSet, flush_zero, f1, f2, f3, f5, f6]
    norm_num
  · intro h
    exact h

/-- C9, amended: in exact real arithmetic, after `Initialize` with
`Radius > 0` and `Eccentricity > 0` that leaves no scalars bound, in a call
without an exact hit, of two positions `i` and `j` of the id list whose
points have the same `z2` and `rxy2` smaller at `i` than at `j`, the weight
returned at `i` is at least the weight returned at `j`. -/
theorem ComputeWeights_monotone (S : State ℝ) (loc : Option (vtkAbstractPointLocator ℝ))
    (ds : vtkDataSet ℝ) (pd : vtkPointData ℝ) (K : vtkEllipsoidalGaussianKernel ℝ)
    (x : Vec3 ℝ) (pIds : List Int) (n0 : Vec3 ℝ) (i j : Nat)
    (hK : K = (Initialize S loc (some ds) pd).kernel)
    (_hR : 0 < S.kernel.Radius) (hE : 0 < S.kernel.Eccentricity)
    (hsa : K.ScalarsArray = none)
    (hx : ∀ id ∈ pIds, ds.GetPoint id ≠ x)
    (hi : i < pIds.length) (hj : j < pIds.length)
    (hz : z2At Real.sqrt K ds x n0 pIds[i] = z2At Real.sqrt K ds x n0 pIds[j])
    (hr : rxy2At Real.sqrt K ds x n0 pIds[i] < rxy2At Real.sqrt K ds x n0 pIds[j]) :
    ∃ r wi wj, ComputeWeights Real.exp Real.sqrt K x pIds n0 = some r ∧
      r.weights[i]? = some wi ∧ r.weights[j]? = some wj ∧ wj ≤ wi := by
  have hds : K.DataSet = some ds := by rw [hK, Initialize_kernel]
  have hF2 : 0 ≤ K.F2 := by
    rw [hK, Initialize_kernel]
    exact mul_self_nonneg _
  have hE2 : 0 < K.E2 := by
    rw [hK, Initialize_kernel]
    exact mul_pos hE hE
  have hs : ∀ id, scalar K id = 1 := fun id => by simp [scalar, hsa]
  have hpos : ∀ id, 0 < unnormalizedWeight Real.exp Real.sqrt K ds x n0 id := by
    intro id
    rw [unnormalizedWeight_eq, hs, one_mul]
    exact Real.exp_pos _
  have hsum : 0 ≤ (pIds.map (unnormalizedWeight Real.exp Real.sqrt K ds x n0)).sum := by
    apply List.sum_nonneg
    intro w hw
    obtain ⟨id, _, rfl⟩ := List.mem_map.1 hw
    exact le_of_lt (hpos id)
  have hle : unnormalizedWeight Real.exp Real.sqrt K ds x n0 pIds[j] ≤
      unnormalizedWeight Real.exp Real.sqrt K ds x n0 pIds[i] := by
    rw [unnormalizedWeight_eq, unnormalizedWeight_eq, hs, hs, one_mul, one_mul, hz]
    apply Real.exp_le_exp.2
    have h1 : rxy2At Real.sqrt K ds x n0 pIds[i] / K.E2 ≤
        rxy2At Real.sqrt K ds x n0 pIds[j] / K.E2 :=
      div_le_div_of_nonneg_right (le_of_lt hr) (le_of_lt hE2)
    nlinarith
  refine ⟨_, _, _, ComputeWeights_no_hit Real.exp Real.sqrt K ds x hds pIds n0
    (r2_ne_zero_of_ne ds x pIds hx), getElem?_map_div _ _ pIds i hi,
    getElem?_map_div _ _ pIds j hj, ?_⟩
  exact div_le_div_of_nonneg_right hle hsum

/-- C9 at the example kernel (normals `(0,0,1)`, so `z2 = 0` for the points
on the first axis), `x = (1/4, 0, 0)`: point 0 has `rxy2 = 1/16`, point 1 has
`rxy2 = 9/16`. -/
theorem ComputeWeights_monotone_witness :
    ∃ r wi wj, ComputeWeights Real.exp Real.sqrt (exampleKernel ℝ) ![1/4, 0, 0] [0, 1]
        ![0, 0, 0] = some r ∧
      r.weights[0]? = some wi ∧ r.weights[1]? = some wj ∧ wj ≤ wi :=
  ComputeWeights_monotone (freshState ℝ) none (exampleDataSet ℝ) (examplePointData ℝ)
    (exampleKernel ℝ) ![1/4, 0, 0] [0, 1] ![0, 0, 0] 0 1 rfl
    (by show (0 : ℝ) < 1; norm_num) (by show (0 : ℝ) < 2; norm_num)
    exampleKernel_ScalarsArray (examplePoints_ne (1/4) (by norm_num) (by norm_num))
    (by simp) (by simp)
    (by simp [z2At, z2, normalBuffer, exampleKernel_NormalsArray, exampleNormals_GetTuple, Dot,
          offset, exampleDataSet])
    (by simp [rxy2At, rxy2, z2, normalBuffer, exampleKernel_NormalsArray,
          exampleNormals_GetTuple, Dot, offset, exampleDataSet]
        norm_num)

/-- C11: with a normals array of three components bound, for a point whose
normal is `(0, 0, 0)` the magnitude the loop body uses is 1 (not the zero the
square root would give), `z2 = 0` and `rxy2 = r2`, and the unnormalized
weight is `s * exp(-F2 * r2 / E2)`. -/
theorem zero_normal_guard (K : vtkEllipsoidalGaussianKernel ℝ) (ds : vtkDataSet ℝ)
    (na : vtkDataArray ℝ) (x n0 : Vec3 ℝ) (id : Int)
    (hna : K.NormalsArray = some na) (h3 : na.NumberOfComponents = 3)
    (hzero : ∀ j, j < 3 → na.GetComponent id j = 0) :
    magnitude Real.sqrt K (normalBuffer K id n0) = 1 ∧
      z2At Real.sqrt K ds x n0 id = 0 ∧
      rxy2At Real.sqrt K ds x n0 id =
        Dot (offset x (ds.GetPoint id)) (offset x (ds.GetPoint id)) ∧
      unnormalizedWeight Real.exp Real.sqrt K ds x n0 id =
        scalar K id * Real.exp (-K.F2 *
          Dot (offset x (ds.GetPoint id)) (offset x (ds.GetPoint id)) / K.E2) := by
  have hn : normalBuffer K id n0 = 0 := by
    funext j
    simp only [normalBuffer, hna, GetTuple_of_three na h3, Pi.zero_apply]
    exact hzero j.val j.isLt
  have hmag : magnitude Real.sqrt K (normalBuffer K id n0) = 1 := by
    simp [magnitude, hna, hn, Dot]
  have hz : z2At Real.sqrt K ds x n0 id = 0 := by
    simp [z2At, z2, hn, Dot]
  have hr := rxy2At_add_z2At Real.sqrt K ds x n0 id
  rw [hz, add_zero] at hr
  refine ⟨hmag, hz, hr, ?_⟩
  rw [unnormalizedWeight_eq, hz, hr, add_zero, mul_div_assoc]

/-- C11 at the example kernel with the zero normals bound, `x` at distance
0.5 from point 0. -/
theorem zero_normal_guard_witness :
    magnitude Real.sqrt (exampleKernelZeroNormals ℝ)
        (normalBuffer (exampleKernelZeroNormals ℝ) 0 ![1, 1, 1]) = 1 ∧
      z2At Real.sqrt (exampleKernelZeroNormals ℝ) (exampleDataSet ℝ) ![1/2, 0, 0] ![1, 1, 1] 0 = 0 ∧
      rxy2At Real.sqrt (exampleKernelZeroNormals ℝ) (exampleDataSet ℝ) ![1/2, 0, 0] ![1, 1, 1] 0 =
        Dot (offset ![1/2, 0, 0] ((exampleDataSet ℝ).GetPoint 0))
          (offset ![1/2, 0, 0] ((exampleDataSet ℝ).GetPoint 0)) ∧
      unnormalizedWeight Real.exp Real.sqrt (exampleKernelZeroNormals ℝ) (exampleDataSet ℝ)
          ![1/2, 0, 0] ![1, 1, 1] 0 =
        scalar (exampleKernelZeroNormals ℝ) 0 * Real.exp (-(exampleKernelZeroNormals ℝ).F2 *
          Dot (offset ![1/2, 0, 0] ((exampleDataSet ℝ).GetPoint 0))
            (offset ![1/2, 0, 0] ((exampleDataSet ℝ).GetPoint 0)) /
          (exampleKernelZeroNormals ℝ).E2) :=
  zero_normal_guard (exampleKernelZeroNormals ℝ) (exampleDataSet ℝ) (exampleNormalsZero ℝ)
    ![1/2, 0, 0] ![1, 1, 1] 0 rfl rfl (fun _ _ => rfl)

/-- C12: on an empty id list `ComputeWeights` returns 0 and leaves an empty id
list and an empty weights array, for every query point and every kernel
(also one without a data set); the first loop ends at once with no weight
and the sum 0, and the second loop has no entry to divide. -/
theorem ComputeWeights_nil (K : vtkEllipsoidalGaussianKernel ℝ) (x n0 : Vec3 ℝ) :
    weightLoop Real.exp Real.sqrt K x [] [] 0 n0 = some (LoopExit.done [] 0 n0) ∧
      ComputeWeights Real.exp Real.sqrt K x [] n0 =
        some { numPts := 0, pIds := [], weights := [] } := by
  constructor
  · rfl
  · rfl

/-- C16: after `FreeStructures` the normals binding and the scalars binding
are empty, and a second `FreeStructures` leaves the state, the kernel and the
reference count of every object, as the first call left it. -/
theorem FreeStructures_idempotent (S : State ℝ) :
    (FreeStructures S).kernel.NormalsArray = none ∧
      (FreeStructures S).kernel.ScalarsArray = none ∧
      FreeStructures (FreeStructures S) = FreeStructures S := by
  have hk := FreeStructures_kernel S
  refine ⟨by rw [hk], by rw [hk], ?_⟩
  apply FreeStructures_of_unbound <;> rw [hk]

/-- C17, the code on a freshly constructed kernel (Radius 1, Sharpness 2,
Eccentricity 2): the constructor stores `F2 = Sharpness / Radius = 2`, not
squared, and `E2 = 4`; `Initialize` on that kernel, whatever it is given,
stores `F2 = 4` and `E2 = 4`.  So `Initialize` changes `F2` on an unmodified
fresh kernel. -/
theorem new_F2_not_squared (rc : Nat → Int) (loc : Option (vtkAbstractPointLocator ℝ))
    (ds : Option (vtkDataSet ℝ)) (pd : vtkPointData ℝ) :
    (vtkEllipsoidalGaussianKernel.new ℝ).F2 = 2 ∧
      (vtkEllipsoidalGaussianKernel.new ℝ).E2 = 4 ∧
      (Initialize { kernel := vtkEllipsoidalGaussianKernel.new ℝ, ReferenceCount := rc }
        loc ds pd).kernel.F2 = 4 ∧
      (Initialize { kernel := vtkEllipsoidalGaussianKernel.new ℝ, ReferenceCount := rc }
        loc ds pd).kernel.E2 = 4 ∧
      (Initialize { kernel := vtkEllipsoidalGaussianKernel.new ℝ, ReferenceCount := rc }
        loc ds pd).kernel.F2 ≠ (vtkEllipsoidalGaussianKernel.new ℝ).F2 := by
  have h1 : (vtkEllipsoidalGaussianKernel.new ℝ).F2 = 2 := by
    show (2 / 1 : ℝ) = 2
    norm_num
  have h2 : (vtkEllipsoidalGaussianKernel.new ℝ).E2 = 4 := by
    show (2 * 2 : ℝ) = 4
    norm_num
  have h3 : (Initialize { kernel := vtkEllipsoidalGaussianKernel.new ℝ, ReferenceCount := rc }
      loc ds pd).kernel.F2 = 4 := by
    rw [Initialize_kernel]
    show (2 / 1 : ℝ) * (2 / 1) = 4
    norm_num
  have h4 : (Initialize { kernel := vtkEllipsoidalGaussianKernel.new ℝ, ReferenceCount := rc }
      loc ds pd).kernel.E2 = 4 := by
    rw [Initialize_kernel]
    show (2 * 2 : ℝ) = 4
    norm_num
  refine ⟨h1, h2, h3, h4, ?_⟩
  rw [h3, h1]
  norm_num

/-- C18: with a normals array bound, for every point and whatever the buffer
`n` holds, `z2 <= r2`, that is `0 <= rxy2`; hence with no scalars bound,
`F2 >= 0` and `E2 > 0` every unnormalized weight lies in `(0, 1]`, and on a
non-empty id list without an exact hit the first loop ends with weights in
`(0, 1]` and a strictly positive sum. -/
theorem rxy2_nonneg (K : vtkEllipsoidalGaussianKernel ℝ) (ds : vtkDataSet ℝ)
    (na : vtkDataArray ℝ) (x : Vec3 ℝ) (pIds : List Int) (n0 : Vec3 ℝ)
    (hna : K.NormalsArray = some na) :
    (∀ id, z2At Real.sqrt K ds x n0 id ≤
          Dot (offset x (ds.GetPoint id)) (offset x (ds.GetPoint id)) ∧
        0 ≤ rxy2At Real.sqrt K ds x n0 id) ∧
      (K.ScalarsArray = none → 0 ≤ K.F2 → 0 < K.E2 →
        (∀ id, 0 < unnormalizedWeight Real.exp Real.sqrt K ds x n0 id ∧
          unnormalizedWeight Real.exp Real.sqrt K ds x n0 id ≤ 1) ∧
        (K.DataSet = some ds → (∀ id ∈ pIds, ds.GetPoint id ≠ x) → pIds ≠ [] →
          ∃ w sum n, weightLoop Real.exp Real.sqrt K x pIds [] 0 n0 =
              some (LoopExit.done w sum n) ∧
            (∀ wi ∈ w, 0 < wi ∧ wi ≤ 1) ∧ 0 < sum)) := by
  have hz : ∀ id, z2At Real.sqrt K ds x n0 id ≤
      Dot (offset x (ds.GetPoint id)) (offset x (ds.GetPoint id)) := by
    intro id
    simp only [z2At, magnitude, hna]
    exact z2_le_r2 _ _
  have hr : ∀ id, 0 ≤ rxy2At Real.sqrt K ds x n0 id := by
    intro id
    have h1 := rxy2At_add_z2At Real.sqrt K ds x n0 id
    have h2 := hz id
    linarith
  refine ⟨fun id => ⟨hz id, hr id⟩, ?_⟩
  intro hsa hF hE
  have hw : ∀ id, 0 < unnormalizedWeight Real.exp Real.sqrt K ds x n0 id ∧
      unnormalizedWeight Real.exp Real.sqrt K ds x n0 id ≤ 1 := by
    intro id
    have hs : scalar K id = 1 := by simp [scalar, hsa]
    rw [unnormalizedWeight_eq, hs, one_mul]
    refine ⟨Real.exp_pos _, ?_⟩
    rw [← Real.exp_zero]
    apply Real.exp_le_exp.2
    have h1 : 0 ≤ rxy2At Real.sqrt K ds x n0 id / K.E2 := div_nonneg (hr id) (le_of_lt hE)
    have h2 : 0 ≤ z2At Real.sqrt K ds x n0 id := z2_nonneg _ _ _
    have h3 : 0 ≤ K.F2 * (rxy2At Real.sqrt K ds x n0 id / K.E2 + z2At Real.sqrt K ds x n0 id) :=
      mul_nonneg hF (add_nonneg h1 h2)
    linarith
  refine ⟨hw, ?_⟩
  intro hds hx hne
  obtain ⟨n, hn⟩ := weightLoop_done Real.exp Real.sqrt K ds x hds pIds [] 0 n0
    (r2_ne_zero_of_ne ds x pIds hx)
  simp only [List.nil_append, zero_add] at hn
  refine ⟨_, _, n, hn, ?_, ?_⟩
  · intro wi hwi
    obtain ⟨id, _, rfl⟩ := List.mem_map.1 hwi
    exact hw id
  · cases pIds with
    | nil => exact absurd rfl hne
    | cons a t =>
      rw [List.map_cons, List.sum_cons]
      have hpos : 0 ≤ (t.map (unnormalizedWeight Real.exp Real.sqrt K ds x n0)).sum := by
        apply List.sum_nonneg
        intro wi hwi
        obtain ⟨id, _, rfl⟩ := List.mem_map.1 hwi
        exact le_of_lt (hw id).1
      linarith [(hw a).1]

/-- C18 at the example kernel (normals bound, no scalars, `F2 = E2 = 4`), `x`
halfway between the points 0 and 1. -/
theorem rxy2_nonneg_witness :
    (∀ id, z2At Real.sqrt (exampleKernel ℝ) (exampleDataSet ℝ) ![1/2, 0, 0] ![0, 0, 0] id ≤
          Dot (offset ![1/2, 0, 0] ((exampleDataSet ℝ).GetPoint id))
            (offset ![1/2, 0, 0] ((exampleDataSet ℝ).GetPoint id)) ∧
        0 ≤ rxy2At Real.sqrt (exampleKernel ℝ) (exampleDataSet ℝ) ![1/2, 0, 0] ![0, 0, 0] id) ∧
      (∀ id, 0 < unnormalizedWeight Real.exp Real.sqrt (exampleKernel ℝ) (exampleDataSet ℝ)
            ![1/2, 0, 0] ![0, 0, 0] id ∧
          unnormalizedWeight Real.exp Real.sqrt (exampleKernel ℝ) (exampleDataSet ℝ)
            ![1/2, 0, 0] ![0, 0, 0] id ≤ 1) ∧
      ∃ w sum n, weightLoop Real.exp Real.sqrt (exampleKernel ℝ) ![1/2, 0, 0] [0, 1] [] 0
          ![0, 0, 0] = some (LoopExit.done w sum n) ∧
        (∀ wi ∈ w, 0 < wi ∧ wi ≤ 1) ∧ 0 < sum := by
  have h := rxy2_nonneg (exampleKernel ℝ) (exampleDataSet ℝ) (exampleNormals ℝ) ![1/2, 0, 0]
    [0, 1] ![0, 0, 0] exampleKernel_NormalsArray
  have h2 := h.2 exampleKernel_ScalarsArray
    (by rw [exampleKernel_F2]; norm_num) (by rw [exampleKernel_E2]; norm_num)
  exact ⟨h.1, h2.1, h2.2 exampleKernel_DataSet
    (examplePoints_ne (1/2) (by norm_num) (by norm_num)) (by simp)⟩

/-- C13 fails where bound scalars differ in sign: on the example data with
the scalar 2 at point 0 and -1 at point 1, `x` halfway between the two
points, the call returns the weights `[2, -1]`, one of them negative. -/
theorem ComputeWeights_negative_weight :
    ComputeWeights Real.exp Real.sqrt (exampleKernelMixed ℝ) ![1/2, 0, 0] [0, 1] ![0, 0, 0] =
        some { numPts := 2, pIds := [0, 1], weights := [2, -1] } ∧
      ¬ ∀ w ∈ ([2, -1] : List ℝ), 0 ≤ w := by
  constructor
  · rw [ComputeWeights_no_hit Real.exp Real.sqrt (exampleKernelMixed ℝ) (exampleDataSet ℝ)
      ![1/2, 0, 0] rfl [0, 1] ![0, 0, 0]
      (r2_ne_zero_of_ne _ _ _ (examplePoints_ne (1/2) (by norm_num) (by norm_num)))]
    have h0 := exampleKernelScalars_unnormalizedWeight (exampleScalarsMixed ℝ) ![0, 0, 0] 0
      (Or.inl rfl)
    have h1 := exampleKernelScalars_unnormalizedWeight (exampleScalarsMixed ℝ) ![0, 0, 0] 1
      (Or.inr rfl)
    have hpos := Real.exp_pos (-1/4)
    simp only [exampleKernelMixed, List.map_cons, List.map_nil, List.sum_cons, List.sum_nil,
      h0, h1]
    simp only [exampleScalarsMixed, if_true, one_ne_zero, if_false, List.length_cons,
      List.length_nil]
    have hd : (2 : ℝ) * Real.exp (-1/4) + (-1 * Real.exp (-1/4) + 0) = Real.exp (-1/4) := by
      ring
    have e0 : (2 : ℝ) * Real.exp (-1/4) / (2 * Real.exp (-1/4) + (-1 * Real.exp (-1/4) + 0)) = 2 := by
      rw [hd, mul_div_assoc, div_self (ne_of_gt hpos), mul_one]
    have e1 : (-1 : ℝ) * Real.exp (-1/4) / (2 * Real.exp (-1/4) + (-1 * Real.exp (-1/4) + 0)) =
        -1 := by
      rw [hd, mul_div_assoc, div_self (ne_of_gt hpos), mul_one]
    rw [e0, e1]
    rfl
  · intro h
    have := h (-1) (by simp)
    norm_num at this

/-- C13, amended: with a data set bound, when the scalar of every listed
point is non-negative (it is 1 without a scalars array) and the call does not
divide by a zero sum (the list is empty, or a listed point is at `x`, or the
unnormalized weights do not sum to 0), every weight `ComputeWeights` returns
is non-negative. -/
theorem ComputeWeights_nonneg (K : vtkEllipsoidalGaussianKernel ℝ) (ds : vtkDataSet ℝ)
    (x : Vec3 ℝ) (pIds : List Int) (n0 : Vec3 ℝ)
    (hds : K.DataSet = some ds) (hs : ∀ id ∈ pIds, 0 ≤ scalar K id)
    (hsum : pIds = [] ∨ (∃ id ∈ pIds, ds.GetPoint id = x) ∨
      (pIds.map (unnormalizedWeight Real.exp Real.sqrt K ds x n0)).sum ≠ 0) :
    ∃ r, ComputeWeights Real.exp Real.sqrt K x pIds n0 = some r ∧ ∀ w ∈ r.weights, 0 ≤ w := by
  by_cases hhit : ∃ id ∈ pIds, ds.GetPoint id = x
  · obtain ⟨pre, k, post, _, _, _, h⟩ := ComputeWeights_exact_hit_aux K ds x pIds n0 hds hhit
    refine ⟨_, h, ?_⟩
    intro w hw
    simp only [List.mem_singleton] at hw
    rw [hw]
    exact zero_le_one
  · have hno : ∀ id ∈ pIds, ds.GetPoint id ≠ x := fun id hid hx => hhit ⟨id, hid, hx⟩
    refine ⟨_, ComputeWeights_no_hit Real.exp Real.sqrt K ds x hds pIds n0
      (r2_ne_zero_of_ne ds x pIds hno), ?_⟩
    have hw : ∀ id ∈ pIds, 0 ≤ unnormalizedWeight Real.exp Real.sqrt K ds x n0 id := by
      intro id hid
      rw [unnormalizedWeight_eq]
      exact mul_nonneg (hs id hid) (le_of_lt (Real.exp_pos _))
    have hge : 0 ≤ (pIds.map (unnormalizedWeight Real.exp Real.sqrt K ds x n0)).sum := by
      apply List.sum_nonneg
      intro w hw1
      obtain ⟨id, hid, rfl⟩ := List.mem_map.1 hw1
      exact hw id hid
    rcases hsum with rfl | h | hne
    · intro w hw1
      simp at hw1
    · exact absurd h hhit
    · have hpos : 0 < (pIds.map (unnormalizedWeight Real.exp Real.sqrt K ds x n0)).sum :=
        lt_of_le_of_ne hge (Ne.symm hne)
      intro w hw1
      obtain ⟨id, hid, rfl⟩ := List.mem_map.1 hw1
      exact div_nonneg (hw id hid) (le_of_lt hpos)

/-- C13, amended, at the example kernel with the scalar 3 bound at every
point, `x` halfway between the points 0 and 1. -/
theorem ComputeWeights_nonneg_witness :
    ∃ r, ComputeWeights Real.exp Real.sqrt (exampleKernelScalars ℝ) ![1/2, 0, 0] [0, 1]
        ![0, 0, 0] = some r ∧ ∀ w ∈ r.weights, 0 ≤ w :=
  ComputeWeights_nonneg (exampleKernelScalars ℝ) (exampleDataSet ℝ) ![1/2, 0, 0] [0, 1]
    ![0, 0, 0] exampleKernelScalars_DataSet
    (by
      intro id _
      show (0 : ℝ) ≤ 3
      norm_num)
    (Or.inr (Or.inr exampleKernelScalars_sum_ne_zero))

/-- C14 fails: on the example data with the scalar 0 bound at every point,
`x` halfway between the points 0 and 1 (no exact hit), the first loop ends
with the sum 0, and the call still returns 2, the two ids and two weights:
no empty result, and nothing in what it returns marks an error. -/
theorem ComputeWeights_zero_sum_not_empty :
    weightLoop Real.exp Real.sqrt (exampleKernelZeroScalars ℝ) ![1/2, 0, 0] [0, 1] [] 0
        ![0, 0, 0] = some (LoopExit.done [0, 0] 0 ![0, 0, 1]) ∧
      ∃ r, ComputeWeights Real.exp Real.sqrt (exampleKernelZeroScalars ℝ) ![1/2, 0, 0] [0, 1]
          ![0, 0, 0] = some r ∧
        r.numPts = 2 ∧ r.pIds = [0, 1] ∧ r.weights.length = 2 ∧ r.pIds ≠ [] ∧ r.weights ≠ [] := by
  refine ⟨exampleKernelZeroScalars_weightLoop, ?_⟩
  refine ⟨{ numPts := 2, pIds := [0, 1], weights := [0, 0].map (fun wi => wi / (0 : ℝ)) }, ?_,
    rfl, rfl, rfl, by simp, by simp⟩
  simp only [ComputeWeights, exampleKernelZeroScalars_weightLoop]
  rfl

/-- C14, amended: when the first loop of `ComputeWeights` runs to its end on a
non-empty id list (no exact hit) with the sum 0, the call returns the
original number of ids, leaves the id list as it was and leaves one weight
per id, each the unnormalized weight divided by the zero sum; the result is
not empty. -/
theorem ComputeWeights_zero_sum (K : vtkEllipsoidalGaussianKernel ℝ) (x : Vec3 ℝ)
    (pIds : List Int) (n0 : Vec3 ℝ) (w : List ℝ) (n : Vec3 ℝ)
    (hloop : weightLoop Real.exp Real.sqrt K x pIds [] 0 n0 = some (LoopExit.done w 0 n))
    (hne : pIds ≠ []) :
    ∃ r, ComputeWeights Real.exp Real.sqrt K x pIds n0 = some r ∧
      r.numPts = pIds.length ∧ r.pIds = pIds ∧ r.weights = w.map (fun wi => wi / 0) ∧
      r.weights.length = pIds.length ∧ r.pIds ≠ [] ∧ r.weights ≠ [] := by
  obtain ⟨ws, h1, _, h3⟩ := weightLoop_done_inv Real.exp Real.sqrt K x pIds [] 0 n0 w 0 n hloop
  simp only [List.nil_append] at h1
  subst h1
  refine ⟨{ numPts := pIds.length, pIds := pIds, weights := w.map (fun wi => wi / 0) },
    by simp only [ComputeWeights, hloop], rfl, rfl, rfl, by simp [h3], hne, ?_⟩
  intro h
  have hlen : (w.map (fun wi => wi / (0 : ℝ))).length = 0 := congrArg List.length h
  rw [List.length_map, h3] at hlen
  exact hne (List.length_eq_zero.1 hlen)

/-- C14, amended, at the example kernel with the scalar 0 bound at every
point, `x` halfway between the points 0 and 1. -/
theorem ComputeWeights_zero_sum_witness :
    ∃ r, ComputeWeights Real.exp Real.sqrt (exampleKernelZeroScalars ℝ) ![1/2, 0, 0] [0, 1]
        ![0, 0, 0] = some r ∧
      r.numPts = ([0, 1] : List Int).length ∧ r.pIds = [0, 1] ∧
      r.weights = ([0, 0] : List ℝ).map (fun wi => wi / 0) ∧
      r.weights.length = ([0, 1] : List Int).length ∧ r.pIds ≠ [] ∧ r.weights ≠ [] :=
  ComputeWeights_zero_sum (exampleKernelZeroScalars ℝ) ![1/2, 0, 0] [0, 1] ![0, 0, 0] [0, 0]
    ![0, 0, 1] exampleKernelZeroScalars_weightLoop (by simp)

/-- C15: on the memory it can reach, a call of `ComputeWeights` returns
exactly when the function of the kernel alone does, and then it leaves the
state (the kernel's configuration and bindings, the points and attribute
values they hold, every reference count) as it was; what it writes is the id
list and the weights array, which hold the ids and weights of
`ComputeWeights`, whatever the weights array held before. -/
theorem ComputeWeightsIn_frame (M : Memory ℝ) (x n0 : Vec3 ℝ) (junk : ℝ) :
    ComputeWeightsIn Real.exp Real.sqrt M x n0 junk =
      (ComputeWeights Real.exp Real.sqrt M.state.kernel x M.pIds n0).map
        (fun r => ({ state := M.state, pIds := r.pIds, weights := r.weights }, r.numPts)) := by
  have h := weightLoopIn_eq Real.exp Real.sqrt x M.pIds 0
    { M with weights := SetNumberOfTuples M.weights M.pIds.length junk } 0 n0
    (by simp [length_SetNumberOfTuples])
  simp only [List.take_zero] at h
  simp only [ComputeWeightsIn, ComputeWeights, h]
  cases weightLoop Real.exp Real.sqrt M.state.kernel x M.pIds [] 0 n0 with
  | none => rfl
  | some e =>
    cases e with
    | hit id => rfl
    | done w sum n => rfl

end VTK
